import Mathlib

/-!
Verification development for the FlexiMart ETL pipeline
(part1-database-etl/etl_pipeline.py).

The pipeline works on pandas DataFrames.  We embed a DataFrame as a
`Frame`: a list of column names together with rows; each row carries the
pandas integer index label (which pandas preserves through
`drop_duplicates` and `dropna`) and a list of cell values aligned with
the column list.  A cell (`PyVal`) is either missing (NaN/None), a
string, or a number (modelled as a rational, exact arithmetic).
-/

/-- A pandas cell value: missing (NaN/None), a string, or a number. -/
inductive PyVal where
  | vNone : PyVal
  | vStr : String → PyVal
  | vNum : ℚ → PyVal
deriving DecidableEq

open PyVal

/-- Is the cell a string? (used for object-dtype detection). -/
def PyVal.isStrV : PyVal → Bool
  | vStr _ => true
  | _ => false

/-- Python str() of a cell, as used in f-string interpolation
(`str(nan)` is `"nan"`). Numbers are rendered with Lean's numeral
printing; no claim exercises numeric ids. -/
def PyVal.pyStrV : PyVal → String
  | vNone => "nan"
  | vStr s => s
  | vNum q => toString q

/-- Python-style whitespace strip, defined directly on the character
list so that kernel evaluation is cheap. -/
def pyStrip (s : String) : String :=
  ⟨((s.data.dropWhile Char.isWhitespace).reverse.dropWhile Char.isWhitespace).reverse⟩

/-- Python `str.lower()` (ASCII model). -/
def pyLower (s : String) : String := ⟨s.data.map Char.toLower⟩

/-- Helper for `pyTitle`: the Bool records whether the previous character
was alphabetic. -/
def pyTitleAux : Bool → List Char → List Char
  | _, [] => []
  | prevAlpha, c :: cs =>
    if c.isAlpha then
      (if prevAlpha then c.toLower else c.toUpper) :: pyTitleAux true cs
    else c :: pyTitleAux false cs

/-- Python `str.title()` (ASCII model): first letter of each run of
letters uppercased, the rest lowercased. -/
def pyTitle (s : String) : String := ⟨pyTitleAux false s.data⟩

/-- Does the first list start with the second? -/
def startsWithChars : List Char → List Char → Bool
  | _, [] => true
  | [], _ :: _ => false
  | c :: cs, p :: ps => c = p && startsWithChars cs ps

/-- Does the list contain the pattern as a contiguous sublist? -/
def containsChars (pat : List Char) : List Char → Bool
  | [] => pat.isEmpty
  | l@(_ :: tl) => startsWithChars l pat || containsChars pat tl

/-- Substring containment test (`pat in s` in Python), on char lists. -/
def containsSub (s pat : String) : Bool := containsChars pat.data s.data

/-- A DataFrame: column names plus rows; every row is (pandas index
label, cell values aligned with `cols`). -/
structure Frame where
  cols : List String
  rows : List (Nat × List PyVal)
deriving DecidableEq

/-- The empty DataFrame `pd.DataFrame()`. -/
def Frame.empty : Frame := ⟨[], []⟩

/-- Cell of a row at column position `i` (missing when out of range). -/
def cell (r : Nat × List PyVal) (i : Nat) : PyVal := r.2.getD i vNone

/-- Position of a column name in the frame's column list. -/
def Frame.colIdx (f : Frame) (c : String) : Option Nat :=
  f.cols.findIdx? (fun x => x = c)

/-- `df[c]`: the column's values; `Except.error` models the KeyError
raised when the column is absent. -/
def Frame.getCol (f : Frame) (c : String) : Except String (List PyVal) :=
  match f.colIdx c with
  | some i => .ok (f.rows.map (fun r => cell r i))
  | none => .error c

/-- `df[c] = vals`: overwrite an existing column, or append a new column
at the end (pandas column assignment). -/
def Frame.setCol (f : Frame) (c : String) (vals : List PyVal) : Frame :=
  match f.colIdx c with
  | some i =>
      { f with rows := List.zipWith (fun r v => (r.1, r.2.set i v)) f.rows vals }
  | none =>
      { cols := f.cols ++ [c],
        rows := List.zipWith (fun r v => (r.1, r.2 ++ [v])) f.rows vals }

/-- `df[c] = df[c].apply(fn)` (KeyError when the column is absent). -/
def Frame.applyCol (f : Frame) (c : String) (fn : PyVal → PyVal) :
    Except String Frame := do
  let xs ← f.getCol c
  pure (f.setCol c (xs.map fn))

/-- Column `i` has pandas object dtype: at least one cell is a string. -/
def isObjCol (rows : List (Nat × List PyVal)) (i : Nat) : Bool :=
  rows.any (fun r => (cell r i).isStrV)

/-- Effect of a pandas `.str` method on one cell of an object column:
strings are mapped, every non-string (NaN and numbers alike) becomes
NaN. -/
def strCellMap (g : String → String) : PyVal → PyVal
  | vStr s => vStr (g s)
  | _ => vNone

/-- Map each cell of a row by position, starting at position `j`. -/
def mapCellsFrom (g : Nat → PyVal → PyVal) : Nat → List PyVal → List PyVal
  | _, [] => []
  | j, v :: vs => g j v :: mapCellsFrom g (j + 1) vs

/-- `trim_str_cols`: on every object-dtype column apply
`.str.strip()`; other columns are untouched.  (The function's own
try/except never fires in this model; it is total.) -/
def Frame.trimStrCols (f : Frame) : Frame :=
  { f with rows := f.rows.map (fun r =>
      (r.1, mapCellsFrom
        (fun j v => if isObjCol f.rows j then strCellMap pyStrip v else v) 0 r.2)) }

/-- `df[c] = df[c].str.g()`: KeyError when the column is absent,
AttributeError (modelled as an error too) when a nonempty column has no
string cell (then its dtype is numeric and `.str` raises). -/
def Frame.strMapCol (f : Frame) (c : String) (g : String → String) :
    Except String Frame :=
  match f.colIdx c with
  | none => .error c
  | some i =>
    if f.rows.isEmpty || isObjCol f.rows i then
      .ok (f.setCol c (f.rows.map (fun r => strCellMap g (cell r i))))
    else .error c

/-- Keep-first deduplication of rows under a key function; `seen` is the
list of keys already emitted. -/
def dedupRowsBy (k : Nat × List PyVal → List PyVal) (seen : List (List PyVal)) :
    List (Nat × List PyVal) → List (Nat × List PyVal)
  | [] => []
  | r :: rs =>
    if k r ∈ seen then dedupRowsBy k seen rs
    else r :: dedupRowsBy k (k r :: seen) rs

/-- `df.drop_duplicates(subset=[c])`: keep the first row for each value
of column `c` (pandas treats NaN keys as equal to each other). -/
def Frame.dropDupSubset (f : Frame) (c : String) : Except String Frame :=
  match f.colIdx c with
  | some i => .ok { f with rows := dedupRowsBy (fun r => [cell r i]) [] f.rows }
  | none => .error c

/-- `df.drop_duplicates()`: keep the first row of each full-row value
(the index label is not compared). -/
def Frame.dropDupFull (f : Frame) : Frame :=
  { f with rows := dedupRowsBy (fun r => r.2) [] f.rows }

/-- `df.dropna(subset=[c])`: drop rows whose cell in column `c` is
missing. -/
def Frame.dropnaCol (f : Frame) (c : String) : Except String Frame :=
  match f.colIdx c with
  | some i => .ok { f with rows := f.rows.filter (fun r => cell r i ≠ vNone) }
  | none => .error c

/-- `df.dropna()`: drop rows containing any missing cell. -/
def Frame.dropnaAll (f : Frame) : Frame :=
  { f with rows := f.rows.filter (fun r => ¬ vNone ∈ r.2) }

/-- `df[[c1, ..., cn]]`: project to the listed columns in the listed
order (KeyError when any is absent); the index is preserved. -/
def Frame.select (f : Frame) (cs : List String) : Except String Frame :=
  match cs.mapM f.colIdx with
  | some idxs =>
      .ok { cols := cs,
            rows := f.rows.map (fun r => (r.1, idxs.map (fun i => cell r i))) }
  | none => .error "KeyError"

/-- `df.rename(columns=...)` for a single column. -/
def Frame.rename (f : Frame) (o n : String) : Frame :=
  { f with cols := f.cols.map (fun c => if c = o then n else c) }

/-- The pandas index of the frame. -/
def Frame.index (f : Frame) : List Nat := f.rows.map (·.1)

/-- Product of two rationals, computed through `mkRat` so that kernel
reduction works (the library's `Rat.mul` is irreducible). -/
def qMul (a b : ℚ) : ℚ := mkRat (a.num * b.num) (a.den * b.den)

/-- Sum of two rationals, computed through `mkRat`. -/
def qAdd (a b : ℚ) : ℚ := mkRat (a.num * b.den + b.num * a.den) (a.den * b.den)

/-- Half of a rational, computed through `mkRat`. -/
def qHalf (a : ℚ) : ℚ := mkRat a.num (a.den * 2)

/-- Elementwise numeric product (`df[a] * df[b]`); NaN propagates. -/
def mulV : PyVal → PyVal → PyVal
  | vNum a, vNum b => vNum (qMul a b)
  | _, _ => vNone

/-- `remove_first_char`: NaN stays NaN, otherwise `str(val)[1:]`. -/
def removeFirstChar : PyVal → PyVal
  | vNone => vNone
  | v => vStr ⟨(v.pyStrV).data.drop 1⟩

/-- `clean_spaces`: strings are stripped, everything else unchanged. -/
def cleanSpacesV : PyVal → PyVal
  | vStr s => vStr (pyStrip s)
  | v => v

/-- `standardize_category`: NaN propagates; strings are stripped and
lowercased, mapped to the controlled vocabulary by substring match, else
title-cased; a non-string cell raises inside and the except branch
returns None (missing). -/
def standardizeCategoryV : PyVal → PyVal
  | vNone => vNone
  | vStr s =>
    let c := pyLower (pyStrip s)
    if containsSub c "electronic" then vStr "Electronics"
    else if containsSub c "fashion" then vStr "Fashion"
    else if containsSub c "grocer" then vStr "Groceries"
    else vStr (pyTitle c)
  | vNum _ => vNone

/-- Insert into a sorted list of rationals. -/
def insertSorted (x : ℚ) : List ℚ → List ℚ
  | [] => [x]
  | y :: ys => if x ≤ y then x :: y :: ys else y :: insertSorted x ys

/-- Insertion sort for rationals. -/
def sortQ (xs : List ℚ) : List ℚ := xs.foldr insertSorted []

/-- The numeric values of a column (NaN skipped, as pandas median
does). -/
def numsOf (cells : List PyVal) : List ℚ :=
  cells.filterMap (fun v => match v with | vNum q => some q | _ => none)

/-- `Series.median()` over the non-missing values: middle element for
odd length, average of the two middle elements for even length, NaN
(none) when there is no value. -/
def pandasMedian (xs : List ℚ) : Option ℚ :=
  let ys := sortQ xs
  let n := ys.length
  if n = 0 then none
  else if n % 2 = 1 then ys.get? (n / 2)
  else do
    let a ← ys.get? (n / 2 - 1)
    let b ← ys.get? (n / 2)
    pure (qHalf (qAdd a b))

/-- `Series.median()` raises TypeError on an object (string-bearing)
column; otherwise the median of the numeric values. -/
def medianE (cells : List PyVal) : Except Unit (Option ℚ) :=
  if cells.any (·.isStrV) then .error ()
  else .ok (pandasMedian (numsOf cells))

/-- `df[c] = df[c].fillna(df[c].median())` for one column: when the
median is NaN the fillna is a no-op; errors (missing column, TypeError
from a string-bearing column) are surfaced for the caller's except. -/
def Frame.fillColWithMedian (f : Frame) (c : String) : Except Unit Frame :=
  match f.getCol c with
  | .error _ => .error ()
  | .ok cells =>
    match medianE cells with
    | .error _ => .error ()
    | .ok none => .ok f
    | .ok (some m) =>
        .ok (f.setCol c (cells.map (fun v => if v = vNone then vNum m else v)))

/-- `fill_missing_product_data_with_median`: fill price then
stock_quantity with their medians; any internal error is caught and the
frame reached so far is returned (the price assignment mutates the frame
in place before a stock-side error can fire). -/
def fillMissingProductDataWithMedian (f : Frame) : Frame :=
  match f.fillColWithMedian "price" with
  | .error _ => f
  | .ok f1 =>
    match f1.fillColWithMedian "stock_quantity" with
    | .error _ => f1
    | .ok f2 => f2

/-- The same two fills in the opposite order (stock_quantity first);
used only to state the order-independence property. -/
def fillMissingProductDataWithMedianSwapped (f : Frame) : Frame :=
  match f.fillColWithMedian "stock_quantity" with
  | .error _ => f
  | .ok f1 =>
    match f1.fillColWithMedian "price" with
    | .error _ => f1
    | .ok f2 => f2

/-- `fill_missing_email`: rows whose email is NaN or the empty string
get the placeholder built from the row's customer_id by f-string
interpolation; its own try/except returns the frame unchanged when a
needed column is absent. -/
def fillMissingEmailF (f : Frame) : Frame :=
  match f.colIdx "email", f.colIdx "customer_id" with
  | some ie, some ic =>
      { f with rows := f.rows.map (fun r =>
          let e := cell r ie
          if e = vNone ∨ e = vStr "" then
            (r.1, r.2.set ie (vStr ("unknown_email_" ++ (cell r ic).pyStrV)))
          else r) }
  | _, _ => f

/-!
Entity cleaners.  Each Python cleaner wraps its whole body in
try/except.  Pandas column assignments mutate the caller's DataFrame in
place up to the first `drop_duplicates`, which returns a copy; so each
cleaner is modelled in state-passing style, returning the state of the
caller's frame after the call together with the cleaner's result.
`clean_customers` / `clean_products` have no return statement in their
except branch (they return None); `clean_sales` returns an empty
DataFrame there.

`standardize_date` (datetime/pandas parsing) and `standardize_phone`
(the phonenumbers library) are thin wrappers around external libraries;
the cleaners are parameterized by them.
-/

/-- The part of `clean_customers` operating on the post-dedup copy:
fill missing emails, standardize phone, title-case city, standardize
registration date, re-trim, project to the canonical column order. -/
def cleanCustomersCore (stdPhone stdDate : PyVal → PyVal) (df : Frame) :
    Except String Frame := do
  let d1 ← df.dropDupSubset "customer_id"
  let d2 := fillMissingEmailF d1
  let d3 ← d2.applyCol "phone" stdPhone
  let d4 ← d3.strMapCol "city" pyTitle
  let d5 ← d4.applyCol "registration_date" stdDate
  let d6 := d5.trimStrCols
  d6.select ["customer_id", "first_name", "last_name", "email", "phone",
             "city", "registration_date"]

/-- `clean_customers`: first component is the caller's frame after the
call (mutated in place by the surrogate-id assignment and the first
trim), second the returned value (`none` models the missing return in
the except branch). -/
def cleanCustomersS (stdPhone stdDate : PyVal → PyVal) (df : Frame) :
    Frame × Option Frame :=
  match df.applyCol "customer_id" removeFirstChar with
  | .error _ => (df, none)
  | .ok d1 =>
    let d2 := d1.trimStrCols
    (d2, (cleanCustomersCore stdPhone stdDate d2).toOption)

/-- The part of `clean_products` operating on the post-dedup copy. -/
def cleanProductsCore (df : Frame) : Except String Frame := do
  let d1 ← df.dropDupSubset "product_id"
  let d2 := fillMissingProductDataWithMedian d1
  let d3 ← d2.applyCol "category" standardizeCategoryV
  let d4 ← d3.applyCol "product_name" cleanSpacesV
  let d5 := d4.trimStrCols
  d5.select ["product_id", "product_name", "category", "price", "stock_quantity"]

/-- `clean_products`: like `clean_customers`, returns (caller's mutated
frame, optional result; `none` on a table-level error). -/
def cleanProductsS (df : Frame) : Frame × Option Frame :=
  match df.applyCol "product_id" removeFirstChar with
  | .error _ => (df, none)
  | .ok d1 =>
    let d2 := d1.trimStrCols
    (d2, (cleanProductsCore d2).toOption)

/-- The part of `clean_sales` after the in-place surrogate/trim steps:
dedup on transaction_id, drop rows missing customer_id, drop rows
missing product_id, standardize the transaction date. -/
def cleanSalesCore (stdDate : PyVal → PyVal) (df : Frame) :
    Except String Frame := do
  let d1 ← df.dropDupSubset "transaction_id"
  let d2 ← d1.dropnaCol "customer_id"
  let d3 ← d2.dropnaCol "product_id"
  d3.applyCol "transaction_date" stdDate

/-- `clean_sales`: returns (caller's mutated frame, result); the except
branch returns an empty DataFrame rather than None. -/
def cleanSalesS (stdDate : PyVal → PyVal) (df : Frame) : Frame × Frame :=
  match df.applyCol "customer_id" removeFirstChar with
  | .error _ => (df, Frame.empty)
  | .ok d1 =>
    match d1.applyCol "product_id" removeFirstChar with
    | .error _ => (d1, Frame.empty)
    | .ok d2 =>
      match d2.applyCol "transaction_id" removeFirstChar with
      | .error _ => (d2, Frame.empty)
      | .ok d3 =>
        let d4 := d3.trimStrCols
        match cleanSalesCore stdDate d4 with
        | .error _ => (d4, Frame.empty)
        | .ok r => (d4, r)

/-- `split_sales_to_orders`: copy, order_id := transaction_id,
total_amount := quantity * unit_price, project, full-row dedup, rename
transaction_date to order_date; the except branch returns an empty
DataFrame (the CSV save is I/O and out of scope). -/
def splitSalesToOrders (salesClean : Frame) : Frame :=
  match (do
    let tid ← salesClean.getCol "transaction_id"
    let df := salesClean.setCol "order_id" tid
    let q ← df.getCol "quantity"
    let u ← df.getCol "unit_price"
    let df := df.setCol "total_amount" (List.zipWith mulV q u)
    let orders ← df.select ["order_id", "customer_id", "transaction_date",
                            "total_amount", "status"]
    pure (orders.dropDupFull.rename "transaction_date" "order_date") :
    Except String Frame) with
  | .ok r => r
  | .error _ => Frame.empty

/-- `split_sales_to_order_items`: copy, order_item_id := index + 1,
subtotal := quantity * unit_price, project, rename transaction_id to
order_id; the except branch returns an empty DataFrame. -/
def splitSalesToOrderItems (salesClean : Frame) : Frame :=
  match (do
    let df := salesClean.setCol "order_item_id"
      (salesClean.index.map (fun i => vNum ((i + 1 : Nat) : ℚ)))
    let q ← df.getCol "quantity"
    let u ← df.getCol "unit_price"
    let df := df.setCol "subtotal" (List.zipWith mulV q u)
    let items ← df.select ["order_item_id", "transaction_id", "product_id",
                           "quantity", "unit_price", "subtotal"]
    pure (items.rename "transaction_id" "order_id") : Except String Frame) with
  | .ok r => r
  | .error _ => Frame.empty

/-!
Load orchestration.  `load_data_to_table` is modelled over an explicit
database state (the four target tables, as lists of value rows) and an
environment saying, per table-load call, whether `get_db_connection`
succeeds and whether the SQL statements execute without a
constraint/data error.  The function returns the new database state and
a trace of observable events.  Deletes and inserts only take effect at
the commit; any error before it rolls the transaction back.
-/

/-- The four target tables of the relational store. -/
structure Db where
  customers : List (List PyVal)
  products : List (List PyVal)
  orders : List (List PyVal)
  order_items : List (List PyVal)
deriving DecidableEq

/-- Per-table-load environment: does the connection succeed, do the SQL
statements execute without a constraint/data error. -/
structure LoadEnv where
  connOk : String → Bool
  execOk : String → Bool

/-- The environment where every connection and statement succeeds. -/
def okEnv : LoadEnv := ⟨fun _ => true, fun _ => true⟩

/-- Observable events of a table load. -/
inductive DbEvent where
  | skipLoad (table : String)
  | connAttempt (table : String)
  | connFailed (table : String)
  | createdTables
  | deleteIssued (table target : String)
  | loadError (table : String)
  | committed (table : String)
deriving DecidableEq

/-- `DELETE FROM t` (applied at commit time). -/
def Db.clearTable (db : Db) (t : String) : Db :=
  if t = "customers" then { db with customers := [] }
  else if t = "products" then { db with products := [] }
  else if t = "orders" then { db with orders := [] }
  else if t = "order_items" then { db with order_items := [] }
  else db

/-- `INSERT INTO t VALUES ...` for a batch of rows (at commit time). -/
def Db.appendTable (db : Db) (t : String) (rs : List (List PyVal)) : Db :=
  if t = "customers" then { db with customers := db.customers ++ rs }
  else if t = "products" then { db with products := db.products ++ rs }
  else if t = "orders" then { db with orders := db.orders ++ rs }
  else if t = "order_items" then { db with order_items := db.order_items ++ rs }
  else db

/-- `load_data_to_table(df, table_name, columns, insert_query,
delete_queries)`: skip (logged) when the frame is None or empty;
return after a failed connection; create all tables when loading
customers; issue the deletes, prepare `df[columns]`, insert, commit.
On any error after the connection the transaction is rolled back
(database unchanged) and the error logged. -/
def loadDataToTable (env : LoadEnv) (db : Db) (df : Option Frame)
    (tableName : String) (columns : List String) (deleteTables : List String) :
    Db × List DbEvent :=
  match df with
  | none => (db, [.skipLoad tableName])
  | some f =>
    if f.rows.isEmpty then (db, [.skipLoad tableName])
    else if ¬ env.connOk tableName then
      (db, [.connAttempt tableName, .connFailed tableName])
    else
      let evs0 := [DbEvent.connAttempt tableName] ++
        (if tableName = "customers" then [DbEvent.createdTables] else [])
      let evsDel := deleteTables.map (DbEvent.deleteIssued tableName)
      match f.select columns with
      | .error _ => (db, evs0 ++ evsDel ++ [.loadError tableName])
      | .ok sel =>
        if env.execOk tableName then
          let db1 := deleteTables.foldl Db.clearTable db
          let db2 := db1.appendTable tableName (sel.rows.map (·.2))
          (db2, evs0 ++ evsDel ++ [.committed tableName])
        else (db, evs0 ++ evsDel ++ [.loadError tableName])

/-- Canonical customers column order (SQL insert order). -/
def customersCols : List String :=
  ["customer_id", "first_name", "last_name", "email", "phone", "city",
   "registration_date"]

/-- Canonical products column order. -/
def productsCols : List String :=
  ["product_id", "product_name", "category", "price", "stock_quantity"]

/-- Canonical orders column order. -/
def ordersCols : List String :=
  ["order_id", "customer_id", "order_date", "total_amount", "status"]

/-- Canonical order_items column order. -/
def orderItemsCols : List String :=
  ["order_item_id", "order_id", "product_id", "quantity", "unit_price",
   "subtotal"]

/-- Canonical raw sales column order. -/
def salesCols : List String :=
  ["transaction_id", "customer_id", "product_id", "quantity", "unit_price",
   "transaction_date", "status"]

/-- `load_data_to_customers_db`: deletes order_items, orders, customers
(deepest dependents first), then inserts the cleaned customers. -/
def loadDataToCustomersDb (env : LoadEnv) (db : Db) (df : Option Frame) :
    Db × List DbEvent :=
  loadDataToTable env db df "customers" customersCols
    ["order_items", "orders", "customers"]

/-- `load_data_to_products_db`: deletes order_items then products. -/
def loadDataToProductsDb (env : LoadEnv) (db : Db) (df : Option Frame) :
    Db × List DbEvent :=
  loadDataToTable env db df "products" productsCols ["order_items", "products"]

/-- `load_data_to_orders_db`: deletes orders only. -/
def loadDataToOrdersDb (env : LoadEnv) (db : Db) (df : Option Frame) :
    Db × List DbEvent :=
  loadDataToTable env db df "orders" ordersCols ["orders"]

/-- `load_data_to_order_items_db`: deletes order_items only. -/
def loadDataToOrderItemsDb (env : LoadEnv) (db : Db) (df : Option Frame) :
    Db × List DbEvent :=
  loadDataToTable env db df "order_items" orderItemsCols ["order_items"]

/-- Step 4 of `main`: the four loads in their fixed order; the run never
halts between them (every load function swallows its own errors). -/
def runLoads (env : LoadEnv) (db : Db) (cdf pdf : Option Frame)
    (odf oidf : Frame) : Db × List DbEvent :=
  let s1 := loadDataToCustomersDb env db cdf
  let s2 := loadDataToProductsDb env s1.1 pdf
  let s3 := loadDataToOrdersDb env s2.1 (some odf)
  let s4 := loadDataToOrderItemsDb env s3.1 (some oidf)
  (s4.1, s1.2 ++ s2.2 ++ s3.2 ++ s4.2)

/-!  Quality report. -/

/-- One entry of the data quality report. -/
structure QualityReport where
  file : String
  recordsProcessed : Nat
  duplicatesRemoved : Nat
  missingValuesHandled : Nat
  recordsLoadedSuccessfully : Nat
deriving DecidableEq

/-- `df.duplicated().sum()`: number of rows equal (by values) to an
earlier row. -/
def dupCountAux (seen : List (List PyVal)) : List (List PyVal) → Nat
  | [] => 0
  | r :: rs => (if r ∈ seen then 1 else 0) + dupCountAux (r :: seen) rs

/-- Keep-first full deduplication of value rows. -/
def dedupVals (seen : List (List PyVal)) : List (List PyVal) → List (List PyVal)
  | [] => []
  | r :: rs =>
    if r ∈ seen then dedupVals seen rs else r :: dedupVals (r :: seen) rs

/-- `generate_quality_report(df, file_name)`: rows processed, duplicate
rows detected, missing cells, and rows surviving
`drop_duplicates()` (plus `dropna()` for the sales file). -/
def generateQualityReport (df : Frame) (fileName : String) : QualityReport :=
  let vals := df.rows.map (·.2)
  let deduped := dedupVals [] vals
  { file := fileName,
    recordsProcessed := df.rows.length,
    duplicatesRemoved := dupCountAux [] vals,
    missingValuesHandled := (vals.map (fun r => r.count vNone)).sum,
    recordsLoadedSuccessfully :=
      if fileName = "customers_raw.csv" ∨ fileName = "products_raw.csv" then
        deduped.length
      else (deduped.filter (fun r => ¬ vNone ∈ r)).length }

/-!  The main pipeline. -/

/-- Everything one `main()` run produces: the final database state, the
event trace of the load phase, the quality report, and the in-memory
tables of the run. -/
structure RunResult where
  db : Db
  events : List DbEvent
  reports : List QualityReport
  cleanedCustomers : Option Frame
  cleanedProducts : Option Frame
  cleanedSales : Frame
  orders : Frame
  orderItems : Frame
deriving DecidableEq

/-- `main()` on already-extracted raw frames: clean (mutating the raw
frames in place), split, load in dependency order, then write the
quality report from the frames named `customers`, `products`, `sales` —
which at that point are the cleaners' mutated versions of the raw
input. -/
def mainRun (stdPhone stdDate : PyVal → PyVal) (env : LoadEnv) (db : Db)
    (customersRaw productsRaw salesRaw : Frame) : RunResult :=
  let c := cleanCustomersS stdPhone stdDate customersRaw
  let p := cleanProductsS productsRaw
  let s := cleanSalesS stdDate salesRaw
  let orders := splitSalesToOrders s.2
  let orderItems := splitSalesToOrderItems s.2
  let loaded := runLoads env db c.2 p.2 orders orderItems
  { db := loaded.1,
    events := loaded.2,
    reports := [generateQualityReport c.1 "customers_raw.csv",
                generateQualityReport p.1 "products_raw.csv",
                generateQualityReport s.1 "sales_raw.csv"],
    cleanedCustomers := c.2,
    cleanedProducts := p.2,
    cleanedSales := s.2,
    orders := orders,
    orderItems := orderItems }

/-- Total accessor for a column's values ([] when the column is
absent); used to state properties without `Except` noise. -/
def Frame.colVals (f : Frame) (c : String) : List PyVal :=
  match f.getCol c with
  | .ok l => l
  | .error _ => []

/-- The net database effect of one successful-environment table load:
`none` when nothing happens to the target table (skip or rolled-back
error), otherwise the inserted value rows. -/
def loadEffect (df : Option Frame) (columns : List String) :
    Option (List (List PyVal)) :=
  match df with
  | none => none
  | some f =>
    if f.rows.isEmpty then none
    else
      match f.select columns with
      | .error _ => none
      | .ok sel => some (sel.rows.map (·.2))

/-!
Concrete data used in counterexamples and witnesses.  The external
normalizers are instantiated so that they agree with the real library
behavior on every cell they are applied to: `idNorm` models
`standardize_date` on dates already in ISO `YYYY-MM-DD` form (the first
strptime format matches and reproduces the input), and `nanPhone`
models `standardize_phone` on missing phones (parsing NaN raises, the
except branch returns NaN).
-/

/-- Date normalizer restricted to already-ISO dates: the identity. -/
def idNorm : PyVal → PyVal := fun v => v

/-- Phone normalizer restricted to missing phones: constantly NaN. -/
def nanPhone : PyVal → PyVal := fun _ => vNone

/-- An empty initial database. -/
def db0 : Db := ⟨[], [], [], []⟩

/-- Raw sales: three rows, the second a duplicate transaction id. -/
def exSalesRaw : Frame :=
  ⟨salesCols,
   [(0, [vStr "T1", vStr "C1", vStr "P1", vNum 2, vNum 50,
         vStr "2024-01-01", vStr "Paid"]),
    (1, [vStr "T1", vStr "C9", vStr "P9", vNum 5, vNum 9,
         vStr "2024-01-02", vStr "Paid"]),
    (2, [vStr "T2", vStr "C2", vStr "P2", vNum 1, vNum 20,
         vStr "2024-01-03", vStr "Paid"])]⟩

/-- Raw sales where the first occurrence of the duplicated transaction
id has a missing customer_id. -/
def exSalesRawBadFirst : Frame :=
  ⟨salesCols,
   [(0, [vStr "T1", vNone, vStr "P1", vNum 2, vNum 50,
         vStr "2024-01-01", vStr "Paid"]),
    (1, [vStr "T1", vStr "C2", vStr "P2", vNum 5, vNum 9,
         vStr "2024-01-02", vStr "Paid"])]⟩

/-- A cleaned sales table exactly as in the spec's decomposition
example: two rows, T1 (qty 2, price 50) and T2 (qty 1, price 20), with
a fresh 0-based index. -/
def exSalesCleanTwo : Frame :=
  ⟨salesCols,
   [(0, [vStr "1", vStr "1", vStr "1", vNum 2, vNum 50,
         vStr "2024-01-01", vStr "Paid"]),
    (1, [vStr "2", vStr "2", vStr "2", vNum 1, vNum 20,
         vStr "2024-01-03", vStr "Paid"])]⟩

/-- Raw customers: two rows that differ only in the id prefix letter,
so they become full duplicates after the in-place surrogate step. -/
def exCustomersRaw : Frame :=
  ⟨customersCols,
   [(0, [vStr "C001", vStr "Asha", vStr "Rao", vStr "a@x.com", vNone,
         vStr "pune", vStr "2024-01-01"]),
    (1, [vStr "D001", vStr "Asha", vStr "Rao", vStr "a@x.com", vNone,
         vStr "pune", vStr "2024-01-01"])]⟩

/-- Raw products: three rows with one missing price and one missing
stock quantity. -/
def exProductsRaw : Frame :=
  ⟨productsCols,
   [(0, [vStr "P001", vStr "A", vStr "electronics", vNum 100, vNum 5]),
    (1, [vStr "P002", vStr "B", vStr "fashion", vNone, vNum 7]),
    (2, [vStr "P003", vStr "C", vStr "grocery", vNum 300, vNone])]⟩

/-- A frame missing the customer_id (and product_id) column. -/
def exNoIdCols : Frame := ⟨["first_name"], [(0, [vStr "A"])]⟩

/-- Raw customers: one row with raw id C001 and a missing email. -/
def exCustomersNoEmail : Frame :=
  ⟨customersCols,
   [(0, [vStr "C001", vStr "A", vStr "B", vNone, vNone, vStr "pune",
         vStr "2024-01-01"])]⟩

/-- Environment where only the customers-table connection fails. -/
def envCustConnFail : LoadEnv := ⟨fun t => ¬ t = "customers", fun _ => true⟩

/-!  General list lemmas used by the development. -/

theorem zipWith_self_map {α β γ : Type} (f : α → β → γ) (g : α → β) :
    ∀ l : List α, List.zipWith f l (l.map g) = l.map (fun a => f a (g a))
  | [] => rfl
  | a :: l => by simp [zipWith_self_map f g l]

theorem zipWith_map_map {α β γ δ : Type} (f : β → γ → δ) (g : α → β) (h : α → γ) :
    ∀ l : List α, List.zipWith f (l.map g) (l.map h) = l.map (fun a => f (g a) (h a))
  | [] => rfl
  | a :: l => by simp [zipWith_map_map f g h l]

theorem getD_append_len (l : List PyVal) (v : PyVal) (t : List PyVal) (d : PyVal) :
    (l ++ v :: t).getD l.length d = v := by
  induction l with
  | nil => rfl
  | cons a l ih => simpa using ih

theorem getD_append_lt (l t : List PyVal) (j : Nat) (d : PyVal) (h : j < l.length) :
    (l ++ t).getD j d = l.getD j d := by
  induction l generalizing j with
  | nil => simp at h
  | cons a l ih =>
    cases j with
    | zero => rfl
    | succ j => simpa using ih j (by simpa using h)

theorem getD_set_ne (l : List PyVal) (i j : Nat) (a d : PyVal) (h : i ≠ j) :
    (l.set i a).getD j d = l.getD j d := by
  simp [List.getD_eq_getElem?_getD, List.getElem?_set_ne h]

theorem dedupRowsBy_sublist (k : Nat × List PyVal → List PyVal) :
    ∀ (rows : List (Nat × List PyVal)) (seen : List (List PyVal)),
      (dedupRowsBy k seen rows).Sublist rows := by
  intro rows
  induction rows with
  | nil => intro seen; simp [dedupRowsBy]
  | cons r rs ih =>
    intro seen
    by_cases h : k r ∈ seen
    · simp only [dedupRowsBy, if_pos h]
      exact (ih seen).trans (List.sublist_cons_self r rs)
    · simp only [dedupRowsBy, if_neg h]
      exact (ih (k r :: seen)).cons₂ r

theorem dedupRowsBy_keys (k : Nat × List PyVal → List PyVal) :
    ∀ (rows : List (Nat × List PyVal)) (seen : List (List PyVal)),
      ((dedupRowsBy k seen rows).map k).Nodup ∧
      ∀ v ∈ (dedupRowsBy k seen rows).map k, v ∉ seen := by
  intro rows
  induction rows with
  | nil => intro seen; simp [dedupRowsBy]
  | cons r rs ih =>
    intro seen
    by_cases h : k r ∈ seen
    · simpa [dedupRowsBy, if_pos h] using ih seen
    · have h2 := ih (k r :: seen)
      simp only [dedupRowsBy, if_neg h, List.map_cons, List.nodup_cons,
        List.mem_cons, forall_eq_or_imp]
      refine ⟨⟨fun hmem => ?_, h2.1⟩, h, fun v hv => ?_⟩
      · exact (h2.2 _ hmem) (List.mem_cons_self _ _)
      · have := h2.2 v hv
        exact fun hs => this (List.mem_cons_of_mem _ hs)

theorem dedupRowsBy_eq_self (k : Nat × List PyVal → List PyVal) :
    ∀ (rows : List (Nat × List PyVal)) (seen : List (List PyVal)),
      (rows.map k).Nodup → (∀ v ∈ rows.map k, v ∉ seen) →
      dedupRowsBy k seen rows = rows := by
  intro rows
  induction rows with
  | nil => intro seen _ _; rfl
  | cons r rs ih =>
    intro seen hnd hdisj
    have h : k r ∉ seen := hdisj _ (List.mem_cons_self _ _)
    simp only [dedupRowsBy, if_neg h]
    have hnd' : (rs.map k).Nodup := (List.nodup_cons.mp (by simpa using hnd)).2
    have hkr : k r ∉ rs.map k := (List.nodup_cons.mp (by simpa using hnd)).1
    congr 1
    refine ih (k r :: seen) hnd' (fun v hv => ?_)
    intro hmem
    rcases List.mem_cons.mp hmem with h1 | h2
    · exact hkr (h1 ▸ hv)
    · exact hdisj v (List.mem_cons_of_mem _ hv) h2

theorem except_bind_ok {ε α β : Type} (a : α) (f : α → Except ε β) :
    (Except.ok (ε := ε) a >>= f) = f a := rfl

theorem except_pure_eq {ε α : Type} (a : α) :
    (pure a : Except ε α) = Except.ok a := rfl

theorem setCol_none_char (cols : List String) (c : String)
    (h : Frame.colIdx ⟨cols, []⟩ c = none)
    (rows : List (Nat × List PyVal)) (vals : List PyVal) :
    Frame.setCol ⟨cols, rows⟩ c vals
      = ⟨cols ++ [c], List.zipWith (fun r v => (r.1, r.2 ++ [v])) rows vals⟩ := by
  have h' : Frame.colIdx ⟨cols, rows⟩ c = none := h
  simp only [Frame.setCol, h']

theorem setCol_some_char (cols : List String) (c : String) (i : Nat)
    (h : Frame.colIdx ⟨cols, []⟩ c = some i)
    (rows : List (Nat × List PyVal)) (vals : List PyVal) :
    Frame.setCol ⟨cols, rows⟩ c vals
      = ⟨cols, List.zipWith (fun r v => (r.1, r.2.set i v)) rows vals⟩ := by
  have h' : Frame.colIdx ⟨cols, rows⟩ c = some i := h
  simp only [Frame.setCol, h']

theorem getCol_char (cols : List String) (c : String) (i : Nat)
    (h : Frame.colIdx ⟨cols, []⟩ c = some i)
    (rows : List (Nat × List PyVal)) :
    Frame.getCol ⟨cols, rows⟩ c = .ok (rows.map (fun r => cell r i)) := by
  have h' : Frame.colIdx ⟨cols, rows⟩ c = some i := h
  simp only [Frame.getCol, h']

theorem select_char (cols : List String) (cs : List String) (idxs : List Nat)
    (h : cs.mapM (Frame.colIdx ⟨cols, []⟩) = some idxs)
    (rows : List (Nat × List PyVal)) :
    Frame.select ⟨cols, rows⟩ cs
      = .ok ⟨cs, rows.map (fun r => (r.1, idxs.map (fun i => cell r i)))⟩ := by
  have h' : cs.mapM (Frame.colIdx ⟨cols, rows⟩) = some idxs := h
  simp only [Frame.select, h']

theorem splitItems_char (crows : List (Nat × List PyVal))
    (hlen : ∀ r ∈ crows, r.2.length = 7) :
    splitSalesToOrderItems ⟨salesCols, crows⟩ =
      ⟨["order_item_id", "order_id", "product_id", "quantity", "unit_price",
        "subtotal"],
       crows.map (fun r => (r.1,
         [vNum ((r.1 + 1 : Nat) : ℚ), cell r 0, cell r 2, cell r 3, cell r 4,
          mulV (cell r 3) (cell r 4)]))⟩ := by
  have hidx : (Frame.index ⟨salesCols, crows⟩).map (fun i => vNum ((i + 1 : Nat) : ℚ))
      = crows.map (fun r => vNum ((r.1 + 1 : Nat) : ℚ)) := by
    show (crows.map (·.1)).map (fun i : Nat => vNum ((i + 1 : Nat) : ℚ)) = _
    rw [List.map_map]; rfl
  have h1 : Frame.setCol ⟨salesCols, crows⟩ "order_item_id"
      ((Frame.index ⟨salesCols, crows⟩).map (fun i => vNum ((i + 1 : Nat) : ℚ)))
      = ⟨salesCols ++ ["order_item_id"],
         crows.map (fun r => (r.1, r.2 ++ [vNum ((r.1 + 1 : Nat) : ℚ)]))⟩ := by
    rw [hidx, setCol_none_char salesCols "order_item_id" rfl, zipWith_self_map]
  have h2q : Frame.getCol
      (⟨salesCols ++ ["order_item_id"],
        crows.map (fun r => (r.1, r.2 ++ [vNum ((r.1 + 1 : Nat) : ℚ)]))⟩ : Frame)
      "quantity" = .ok (crows.map (fun r => cell r 3)) := by
    rw [getCol_char (salesCols ++ ["order_item_id"]) "quantity" 3 rfl, List.map_map]
    refine congrArg _ (List.map_congr_left (fun r hr => ?_))
    exact getD_append_lt _ _ 3 _ (by rw [hlen r hr]; omega)
  have h2u : Frame.getCol
      (⟨salesCols ++ ["order_item_id"],
        crows.map (fun r => (r.1, r.2 ++ [vNum ((r.1 + 1 : Nat) : ℚ)]))⟩ : Frame)
      "unit_price" = .ok (crows.map (fun r => cell r 4)) := by
    rw [getCol_char (salesCols ++ ["order_item_id"]) "unit_price" 4 rfl, List.map_map]
    refine congrArg _ (List.map_congr_left (fun r hr => ?_))
    exact getD_append_lt _ _ 4 _ (by rw [hlen r hr]; omega)
  have hz : List.zipWith mulV (crows.map (fun r => cell r 3))
      (crows.map (fun r => cell r 4))
      = crows.map (fun r => mulV (cell r 3) (cell r 4)) := zipWith_map_map _ _ _ _
  have h3 : Frame.setCol
      (⟨salesCols ++ ["order_item_id"],
        crows.map (fun r => (r.1, r.2 ++ [vNum ((r.1 + 1 : Nat) : ℚ)]))⟩ : Frame)
      "subtotal" (crows.map (fun r => mulV (cell r 3) (cell r 4)))
      = ⟨(salesCols ++ ["order_item_id"]) ++ ["subtotal"],
         crows.map (fun r => (r.1,
           (r.2 ++ [vNum ((r.1 + 1 : Nat) : ℚ)]) ++ [mulV (cell r 3) (cell r 4)]))⟩ := by
    rw [setCol_none_char (salesCols ++ ["order_item_id"]) "subtotal" rfl,
      zipWith_map_map]
  have h4 : Frame.select
      (⟨(salesCols ++ ["order_item_id"]) ++ ["subtotal"],
        crows.map (fun r => (r.1,
          (r.2 ++ [vNum ((r.1 + 1 : Nat) : ℚ)]) ++ [mulV (cell r 3) (cell r 4)]))⟩ : Frame)
      ["order_item_id", "transaction_id", "product_id", "quantity", "unit_price",
       "subtotal"]
      = .ok ⟨["order_item_id", "transaction_id", "product_id", "quantity",
              "unit_price", "subtotal"],
             crows.map (fun r => (r.1,
               [vNum ((r.1 + 1 : Nat) : ℚ), cell r 0, cell r 2, cell r 3, cell r 4,
                mulV (cell r 3) (cell r 4)]))⟩ := by
    rw [select_char ((salesCols ++ ["order_item_id"]) ++ ["subtotal"])
      ["order_item_id", "transaction_id", "product_id", "quantity", "unit_price",
       "subtotal"] [7, 0, 2, 3, 4, 8] rfl, List.map_map]
    refine congrArg _ (congrArg _ (List.map_congr_left (fun r hr => ?_)))
    have hl7 : r.2.length = 7 := hlen r hr
    simp only [Function.comp, cell, List.map_cons, List.map_nil, List.append_assoc,
      List.cons_append, List.nil_append]
    have e7 : (r.2 ++ [vNum ((r.1 + 1 : Nat) : ℚ),
        mulV (r.2.getD 3 vNone) (r.2.getD 4 vNone)]).getD 7 vNone
        = vNum ((r.1 + 1 : Nat) : ℚ) := by
      rw [List.getD_append_right r.2 _ vNone 7 (by omega)]
      simp [hl7]
    have e8 : (r.2 ++ [vNum ((r.1 + 1 : Nat) : ℚ),
        mulV (r.2.getD 3 vNone) (r.2.getD 4 vNone)]).getD 8 vNone
        = mulV (r.2.getD 3 vNone) (r.2.getD 4 vNone) := by
      rw [List.getD_append_right r.2 _ vNone 8 (by omega)]
      simp [hl7]
    have elt : ∀ j, j < 7 → (r.2 ++ [vNum ((r.1 + 1 : Nat) : ℚ),
        mulV (r.2.getD 3 vNone) (r.2.getD 4 vNone)]).getD j vNone
        = r.2.getD j vNone := fun j hj => List.getD_append _ _ _ j (by omega)
    rw [e7, e8, elt 0 (by omega), elt 2 (by omega), elt 3 (by omega), elt 4 (by omega)]
  unfold splitSalesToOrderItems
  simp only [h1, h2q, h2u, except_bind_ok, hz, h3, h4, except_pure_eq]
  rfl

theorem splitOrders_char (crows : List (Nat × List PyVal))
    (hlen : ∀ r ∈ crows, r.2.length = 7)
    (hnd : (crows.map (fun r => cell r 0)).Nodup) :
    splitSalesToOrders ⟨salesCols, crows⟩ =
      ⟨["order_id", "customer_id", "order_date", "total_amount", "status"],
       crows.map (fun r => (r.1,
         [cell r 0, cell r 1, cell r 5, mulV (cell r 3) (cell r 4), cell r 6]))⟩ := by
  have hgt : Frame.getCol ⟨salesCols, crows⟩ "transaction_id"
      = .ok (crows.map (fun r => cell r 0)) :=
    getCol_char salesCols "transaction_id" 0 rfl crows
  have h1 : Frame.setCol ⟨salesCols, crows⟩ "order_id"
      (crows.map (fun r => cell r 0))
      = ⟨salesCols ++ ["order_id"],
         crows.map (fun r => (r.1, r.2 ++ [cell r 0]))⟩ := by
    rw [setCol_none_char salesCols "order_id" rfl, zipWith_self_map]
  have h2q : Frame.getCol
      (⟨salesCols ++ ["order_id"],
        crows.map (fun r => (r.1, r.2 ++ [cell r 0]))⟩ : Frame)
      "quantity" = .ok (crows.map (fun r => cell r 3)) := by
    rw [getCol_char (salesCols ++ ["order_id"]) "quantity" 3 rfl, List.map_map]
    refine congrArg _ (List.map_congr_left (fun r hr => ?_))
    exact getD_append_lt _ _ 3 _ (by rw [hlen r hr]; omega)
  have h2u : Frame.getCol
      (⟨salesCols ++ ["order_id"],
        crows.map (fun r => (r.1, r.2 ++ [cell r 0]))⟩ : Frame)
      "unit_price" = .ok (crows.map (fun r => cell r 4)) := by
    rw [getCol_char (salesCols ++ ["order_id"]) "unit_price" 4 rfl, List.map_map]
    refine congrArg _ (List.map_congr_left (fun r hr => ?_))
    exact getD_append_lt _ _ 4 _ (by rw [hlen r hr]; omega)
  have hz : List.zipWith mulV (crows.map (fun r => cell r 3))
      (crows.map (fun r => cell r 4))
      = crows.map (fun r => mulV (cell r 3) (cell r 4)) := zipWith_map_map _ _ _ _
  have h3 : Frame.setCol
      (⟨salesCols ++ ["order_id"],
        crows.map (fun r => (r.1, r.2 ++ [cell r 0]))⟩ : Frame)
      "total_amount" (crows.map (fun r => mulV (cell r 3) (cell r 4)))
      = ⟨(salesCols ++ ["order_id"]) ++ ["total_amount"],
         crows.map (fun r => (r.1,
           (r.2 ++ [cell r 0]) ++ [mulV (cell r 3) (cell r 4)]))⟩ := by
    rw [setCol_none_char (salesCols ++ ["order_id"]) "total_amount" rfl,
      zipWith_map_map]
  have h4 : Frame.select
      (⟨(salesCols ++ ["order_id"]) ++ ["total_amount"],
        crows.map (fun r => (r.1,
          (r.2 ++ [cell r 0]) ++ [mulV (cell r 3) (cell r 4)]))⟩ : Frame)
      ["order_id", "customer_id", "transaction_date", "total_amount", "status"]
      = .ok ⟨["order_id", "customer_id", "transaction_date", "total_amount",
              "status"],
             crows.map (fun r => (r.1,
               [cell r 0, cell r 1, cell r 5, mulV (cell r 3) (cell r 4),
                cell r 6]))⟩ := by
    rw [select_char ((salesCols ++ ["order_id"]) ++ ["total_amount"])
      ["order_id", "customer_id", "transaction_date", "total_amount", "status"]
      [7, 1, 5, 8, 6] rfl, List.map_map]
    refine congrArg _ (congrArg _ (List.map_congr_left (fun r hr => ?_)))
    have hl7 : r.2.length = 7 := hlen r hr
    simp only [Function.comp, cell, List.map_cons, List.map_nil, List.append_assoc,
      List.cons_append, List.nil_append]
    have e7 : (r.2 ++ [r.2.getD 0 vNone,
        mulV (r.2.getD 3 vNone) (r.2.getD 4 vNone)]).getD 7 vNone
        = r.2.getD 0 vNone := by
      rw [List.getD_append_right r.2 _ vNone 7 (by omega)]
      simp [hl7]
    have e8 : (r.2 ++ [r.2.getD 0 vNone,
        mulV (r.2.getD 3 vNone) (r.2.getD 4 vNone)]).getD 8 vNone
        = mulV (r.2.getD 3 vNone) (r.2.getD 4 vNone) := by
      rw [List.getD_append_right r.2 _ vNone 8 (by omega)]
      simp [hl7]
    have elt : ∀ j, j < 7 → (r.2 ++ [r.2.getD 0 vNone,
        mulV (r.2.getD 3 vNone) (r.2.getD 4 vNone)]).getD j vNone
        = r.2.getD j vNone := fun j hj => List.getD_append _ _ _ j (by omega)
    rw [e7, e8, elt 1 (by omega), elt 5 (by omega), elt 6 (by omega)]
  have hdd : Frame.dropDupFull
      (⟨["order_id", "customer_id", "transaction_date", "total_amount", "status"],
        crows.map (fun r => (r.1,
          [cell r 0, cell r 1, cell r 5, mulV (cell r 3) (cell r 4),
           cell r 6]))⟩ : Frame)
      = ⟨["order_id", "customer_id", "transaction_date", "total_amount", "status"],
         crows.map (fun r => (r.1,
           [cell r 0, cell r 1, cell r 5, mulV (cell r 3) (cell r 4),
            cell r 6]))⟩ := by
    have hndvals : ((crows.map (fun r => (r.1,
        [cell r 0, cell r 1, cell r 5, mulV (cell r 3) (cell r 4),
         cell r 6]))).map (fun r => r.2)).Nodup := by
      rw [List.map_map]
      refine List.Nodup.of_map (fun l => l.getD 0 vNone) ?_
      rw [List.map_map]
      exact hnd
    simp only [Frame.dropDupFull]
    exact congrArg _ (dedupRowsBy_eq_self _ _ [] hndvals (by simp))
  unfold splitSalesToOrders
  simp only [hgt, except_bind_ok, h1, h2q, h2u, hz, h3, h4, except_pure_eq, hdd]
  rfl

theorem applyCol_char (cols : List String) (c : String) (i : Nat)
    (h : Frame.colIdx ⟨cols, []⟩ c = some i)
    (rows : List (Nat × List PyVal)) (fn : PyVal → PyVal) :
    Frame.applyCol ⟨cols, rows⟩ c fn
      = .ok ⟨cols, rows.map (fun r => (r.1, r.2.set i (fn (cell r i))))⟩ := by
  unfold Frame.applyCol
  rw [getCol_char cols c i h]
  show Except.ok (Frame.setCol ⟨cols, rows⟩ c ((rows.map (fun r => cell r i)).map fn)) = _
  rw [List.map_map, setCol_some_char cols c i h, zipWith_self_map]
  rfl

theorem dropDup_char (cols : List String) (c : String) (i : Nat)
    (h : Frame.colIdx ⟨cols, []⟩ c = some i)
    (rows : List (Nat × List PyVal)) :
    Frame.dropDupSubset ⟨cols, rows⟩ c
      = .ok ⟨cols, dedupRowsBy (fun r => [cell r i]) [] rows⟩ := by
  have h' : Frame.colIdx ⟨cols, rows⟩ c = some i := h
  simp only [Frame.dropDupSubset, h']

theorem dropna_char (cols : List String) (c : String) (i : Nat)
    (h : Frame.colIdx ⟨cols, []⟩ c = some i)
    (rows : List (Nat × List PyVal)) :
    Frame.dropnaCol ⟨cols, rows⟩ c
      = .ok ⟨cols, rows.filter (fun r => cell r i ≠ vNone)⟩ := by
  have h' : Frame.colIdx ⟨cols, rows⟩ c = some i := h
  simp only [Frame.dropnaCol, h']

theorem mapCellsFrom_length (g : Nat → PyVal → PyVal) :
    ∀ (j : Nat) (l : List PyVal), (mapCellsFrom g j l).length = l.length := by
  intro j l
  induction l generalizing j with
  | nil => rfl
  | cons v vs ih => simp [mapCellsFrom, ih]

theorem cleanSales_char (stdDate : PyVal → PyVal)
    (rows : List (Nat × List PyVal)) :
    ∃ pre : List (Nat × List PyVal),
      ((∀ r ∈ rows, r.2.length = 7) → ∀ r ∈ pre, r.2.length = 7) ∧
      (cleanSalesS stdDate ⟨salesCols, rows⟩).2
        = ⟨salesCols,
           (((dedupRowsBy (fun r => [cell r 0]) [] pre).filter
               (fun r => cell r 1 ≠ vNone)).filter
               (fun r => cell r 2 ≠ vNone)).map
             (fun r => (r.1, r.2.set 5 (stdDate (cell r 5))))⟩ := by
  refine ⟨(Frame.trimStrCols ⟨salesCols,
    (rows.map (fun r => (r.1, r.2.set 1 (removeFirstChar (cell r 1))))
      |>.map (fun r => (r.1, r.2.set 2 (removeFirstChar (cell r 2))))
      |>.map (fun r => (r.1, r.2.set 0 (removeFirstChar (cell r 0)))))⟩).rows,
    ?_, ?_⟩
  · intro hlen r hr
    obtain ⟨r3, hr3, rfl⟩ := List.mem_map.mp hr
    obtain ⟨r2, hr2, rfl⟩ := List.mem_map.mp hr3
    obtain ⟨r1, hr1, rfl⟩ := List.mem_map.mp hr2
    obtain ⟨r0, hr0, rfl⟩ := List.mem_map.mp hr1
    simp [mapCellsFrom_length, List.length_set, hlen r0 hr0]
  · unfold cleanSalesS
    rw [applyCol_char salesCols "customer_id" 1 rfl]
    simp only [cleanSalesCore,
      applyCol_char salesCols "product_id" 2 rfl,
      applyCol_char salesCols "transaction_id" 0 rfl,
      dropDup_char salesCols "transaction_id" 0 rfl,
      dropna_char salesCols "customer_id" 1 rfl,
      dropna_char salesCols "product_id" 2 rfl,
      applyCol_char salesCols "transaction_date" 5 rfl,
      except_bind_ok, except_pure_eq, Frame.trimStrCols]

theorem colVals_char (cols : List String) (c : String) (i : Nat)
    (h : Frame.colIdx ⟨cols, []⟩ c = some i)
    (rows : List (Nat × List PyVal)) :
    Frame.colVals ⟨cols, rows⟩ c = rows.map (fun r => cell r i) := by
  simp only [Frame.colVals, getCol_char cols c i h]

/-!  Claim theorems. -/

/-- C1, counterexample.  `split_sales_to_order_items` does not assign
`order_item_id` by 1-based position in the cleaned batch: on a raw
sales batch whose middle row is a duplicate transaction id, the cleaned
table keeps pandas indices 0 and 2, so the produced ids are 1 and 3,
not 1 and 2. -/
theorem order_item_id_not_cleaned_position :
    (splitSalesToOrderItems (cleanSalesS idNorm exSalesRaw).2).colVals
        "order_item_id" = [vNum 1, vNum 3] ∧
    (splitSalesToOrderItems (cleanSalesS idNorm exSalesRaw).2).colVals
        "order_item_id" ≠ [vNum 1, vNum 2] := by decide

/-- C1, amended.  For every cleaned sales table (canonical columns,
7 cells per row), `split_sales_to_order_items` assigns each row
`order_item_id` equal to that row's pandas index label plus one — the
row's 1-based position in the original raw batch, which equals the
1-based position in the cleaned batch only when no preceding raw rows
were dropped — and `subtotal` equal to quantity times unit price; on
the spec's two-row cleaned table with a fresh index (T1 qty 2 price 50,
T2 qty 1 price 20) this yields ids 1 and 2 and subtotals 100 and 20. -/
theorem order_item_id_is_index_plus_one (crows : List (Nat × List PyVal))
    (hlen : ∀ r ∈ crows, r.2.length = 7) :
    (splitSalesToOrderItems ⟨salesCols, crows⟩).colVals "order_item_id"
      = crows.map (fun r => vNum ((r.1 + 1 : Nat) : ℚ)) ∧
    (splitSalesToOrderItems ⟨salesCols, crows⟩).colVals "subtotal"
      = crows.map (fun r => mulV (cell r 3) (cell r 4)) ∧
    (splitSalesToOrderItems exSalesCleanTwo).colVals "order_item_id"
      = [vNum 1, vNum 2] ∧
    (splitSalesToOrderItems exSalesCleanTwo).colVals "subtotal"
      = [vNum 100, vNum 20] := by
  rw [splitItems_char crows hlen]
  refine ⟨?_, ?_, by decide, by decide⟩
  · rw [colVals_char ["order_item_id", "order_id", "product_id", "quantity",
      "unit_price", "subtotal"] "order_item_id" 0 rfl, List.map_map]
    rfl
  · rw [colVals_char ["order_item_id", "order_id", "product_id", "quantity",
      "unit_price", "subtotal"] "subtotal" 5 rfl, List.map_map]
    rfl

/-- C1, witness for the amended theorem at the two-row cleaned table. -/
theorem order_item_id_is_index_plus_one_witness :
    (splitSalesToOrderItems ⟨salesCols, exSalesCleanTwo.rows⟩).colVals
        "order_item_id"
      = exSalesCleanTwo.rows.map (fun r => vNum ((r.1 + 1 : Nat) : ℚ)) :=
  (order_item_id_is_index_plus_one exSalesCleanTwo.rows (by decide)).1

/-- C6, counterexample.  Deduplication happens before the missing-id
drops, so a batch whose two rows share transaction id T1 — the first
occurrence having a missing customer_id — collapses to zero cleaned
rows (the kept first occurrence is then dropped), not to exactly one;
Orders and OrderItems are empty as well. -/
theorem dup_transaction_can_collapse_to_zero :
    (cleanSalesS idNorm exSalesRawBadFirst).2.rows = [] ∧
    (splitSalesToOrders (cleanSalesS idNorm exSalesRawBadFirst).2).rows = [] ∧
    (splitSalesToOrderItems (cleanSalesS idNorm exSalesRawBadFirst).2).rows
      = [] := by decide

/-- C6, amended.  For every raw sales batch (canonical columns, 7 cells
per row): every transaction id value occurs at most once in the cleaned
table (exactly one survivor only when the first occurrence also passes
the missing-id drops), and each cleaned row yields exactly one
corresponding row in Orders and in OrderItems — their order_id columns
are exactly the cleaned transaction_id column, one row per cleaned
row. -/
theorem transaction_id_collapse (stdDate : PyVal → PyVal)
    (rows : List (Nat × List PyVal))
    (hlen : ∀ r ∈ rows, r.2.length = 7) :
    (∀ v : PyVal,
      (((cleanSalesS stdDate ⟨salesCols, rows⟩).2).colVals
          "transaction_id").count v ≤ 1) ∧
    (splitSalesToOrders (cleanSalesS stdDate ⟨salesCols, rows⟩).2).colVals
        "order_id"
      = ((cleanSalesS stdDate ⟨salesCols, rows⟩).2).colVals "transaction_id" ∧
    (splitSalesToOrderItems (cleanSalesS stdDate ⟨salesCols, rows⟩).2).colVals
        "order_id"
      = ((cleanSalesS stdDate ⟨salesCols, rows⟩).2).colVals "transaction_id" ∧
    (splitSalesToOrders (cleanSalesS stdDate ⟨salesCols, rows⟩).2).rows.length
      = ((cleanSalesS stdDate ⟨salesCols, rows⟩).2).rows.length ∧
    (splitSalesToOrderItems
        (cleanSalesS stdDate ⟨salesCols, rows⟩).2).rows.length
      = ((cleanSalesS stdDate ⟨salesCols, rows⟩).2).rows.length := by
  obtain ⟨pre, hprelen, hchar⟩ := cleanSales_char stdDate rows
  rw [hchar]
  have hkeys : ((((dedupRowsBy (fun r => [cell r 0]) [] pre).filter
        (fun r => cell r 1 ≠ vNone)).filter
        (fun r => cell r 2 ≠ vNone)).map
        (fun r => (r.1, r.2.set 5 (stdDate (cell r 5))))).map (fun r => cell r 0)
      = (((dedupRowsBy (fun r => [cell r 0]) [] pre).filter
          (fun r => cell r 1 ≠ vNone)).filter
          (fun r => cell r 2 ≠ vNone)).map (fun r => cell r 0) := by
    rw [List.map_map]
    exact List.map_congr_left (fun r hr => getD_set_ne _ 5 0 _ _ (by omega))
  have hndDedup : ((dedupRowsBy (fun r => [cell r 0]) [] pre).map
      (fun r => cell r 0)).Nodup := by
    have h1 := (dedupRowsBy_keys (fun r => [cell r 0]) pre []).1
    have h2 : (dedupRowsBy (fun r => [cell r 0]) [] pre).map
        (fun r => [cell r 0])
        = ((dedupRowsBy (fun r => [cell r 0]) [] pre).map
            (fun r => cell r 0)).map (fun v => [v]) := by
      rw [List.map_map]; rfl
    rw [h2] at h1
    exact h1.of_map _
  have hndFilt : ((((dedupRowsBy (fun r => [cell r 0]) [] pre).filter
      (fun r => cell r 1 ≠ vNone)).filter
      (fun r => cell r 2 ≠ vNone)).map (fun r => cell r 0)).Nodup := by
    refine List.Nodup.sublist (List.Sublist.map _ ?_) hndDedup
    exact (List.filter_sublist _).trans (List.filter_sublist _)
  have hndClean : (((((dedupRowsBy (fun r => [cell r 0]) [] pre).filter
      (fun r => cell r 1 ≠ vNone)).filter
      (fun r => cell r 2 ≠ vNone)).map
      (fun r => (r.1, r.2.set 5 (stdDate (cell r 5))))).map
      (fun r => cell r 0)).Nodup := by
    rw [hkeys]; exact hndFilt
  have hlenClean : ∀ r ∈ ((((dedupRowsBy (fun r => [cell r 0]) [] pre).filter
      (fun r => cell r 1 ≠ vNone)).filter
      (fun r => cell r 2 ≠ vNone)).map
      (fun r => (r.1, r.2.set 5 (stdDate (cell r 5))))), r.2.length = 7 := by
    intro r hr
    obtain ⟨a, ha, rfl⟩ := List.mem_map.mp hr
    have ha2 : a ∈ dedupRowsBy (fun r => [cell r 0]) [] pre :=
      ((List.filter_sublist _).trans (List.filter_sublist _)).subset ha
    have ha3 : a ∈ pre := (dedupRowsBy_sublist _ pre []).subset ha2
    simp [List.length_set, hprelen hlen a ha3]
  rw [splitOrders_char _ hlenClean hndClean, splitItems_char _ hlenClean]
  rw [colVals_char salesCols "transaction_id" 0 rfl,
    colVals_char ["order_id", "customer_id", "order_date", "total_amount",
      "status"] "order_id" 0 rfl,
    colVals_char ["order_item_id", "order_id", "product_id", "quantity",
      "unit_price", "subtotal"] "order_id" 1 rfl]
  refine ⟨?_, ?_, ?_, by simp, by simp⟩
  · intro v
    rw [List.map_map]
    have : ((((dedupRowsBy (fun r => [cell r 0]) [] pre).filter
        (fun r => cell r 1 ≠ vNone)).filter
        (fun r => cell r 2 ≠ vNone)).map
        ((fun r => cell r 0) ∘ (fun r => (r.1, r.2.set 5 (stdDate (cell r 5))))))
        = (((dedupRowsBy (fun r => [cell r 0]) [] pre).filter
          (fun r => cell r 1 ≠ vNone)).filter
          (fun r => cell r 2 ≠ vNone)).map (fun r => cell r 0) := by
      exact List.map_congr_left (fun r hr => getD_set_ne _ 5 0 _ _ (by omega))
    rw [this]
    exact List.nodup_iff_count_le_one.mp hndFilt v
  · rw [List.map_map]; rfl
  · rw [List.map_map]; rfl

theorem getD_set_self (l : List PyVal) (i : Nat) (a d : PyVal)
    (h : i < l.length) : (l.set i a).getD i d = a := by
  simp [List.getD_eq_getElem?_getD, List.getElem?_set_self h]

theorem fillColWithMedian_char (cols : List String) (c : String) (i : Nat)
    (h : Frame.colIdx ⟨cols, []⟩ c = some i)
    (rows : List (Nat × List PyVal))
    (hnum : ∀ r ∈ rows, (cell r i).isStrV = false) :
    Frame.fillColWithMedian ⟨cols, rows⟩ c
      = .ok ((pandasMedian (numsOf (rows.map (fun r => cell r i)))).elim
          (⟨cols, rows⟩ : Frame)
          (fun m => ⟨cols, rows.map (fun r =>
            (r.1, r.2.set i (if cell r i = vNone then vNum m else cell r i)))⟩)) := by
  unfold Frame.fillColWithMedian
  rw [getCol_char cols c i h]
  have hany : (rows.map (fun r => cell r i)).any (·.isStrV) = false := by
    rw [List.any_eq_false]
    intro v hv
    obtain ⟨r, hr, rfl⟩ := List.mem_map.mp hv
    simp [hnum r hr]
  simp only [medianE, hany, Bool.false_eq_true, if_false]
  cases hm : pandasMedian (numsOf (rows.map (fun r => cell r i))) with
  | none => rfl
  | some m =>
    simp only [Option.elim]
    rw [setCol_some_char cols c i h, List.map_map, zipWith_self_map]
    rfl

/-- C7.  For every products batch (canonical columns, 5 cells per row,
numeric-or-missing price and stock_quantity columns): the fill value
for each of price and stock_quantity is the pandas median of that
column's non-missing values taken before any fill; performing the two
fills in the opposite order yields the same frame; and on the spec's
example — prices 100, missing, 300 — the missing price is filled with
200 (and stocks 5, 7, missing with 6). -/
theorem median_fill_prefill_and_commutes (prows : List (Nat × List PyVal))
    (hlen : ∀ r ∈ prows, r.2.length = 5)
    (hpnum : ∀ r ∈ prows, (cell r 3).isStrV = false)
    (hsnum : ∀ r ∈ prows, (cell r 4).isStrV = false) :
    (fillMissingProductDataWithMedian ⟨productsCols, prows⟩).colVals "price"
      = (pandasMedian (numsOf (prows.map (fun r => cell r 3)))).elim
          (prows.map (fun r => cell r 3))
          (fun m => (prows.map (fun r => cell r 3)).map
            (fun v => if v = vNone then vNum m else v)) ∧
    (fillMissingProductDataWithMedian ⟨productsCols, prows⟩).colVals
        "stock_quantity"
      = (pandasMedian (numsOf (prows.map (fun r => cell r 4)))).elim
          (prows.map (fun r => cell r 4))
          (fun m => (prows.map (fun r => cell r 4)).map
            (fun v => if v = vNone then vNum m else v)) ∧
    fillMissingProductDataWithMedianSwapped ⟨productsCols, prows⟩
      = fillMissingProductDataWithMedian ⟨productsCols, prows⟩ ∧
    (fillMissingProductDataWithMedian exProductsRaw).colVals "price"
      = [vNum 100, vNum 200, vNum 300] ∧
    (fillMissingProductDataWithMedian exProductsRaw).colVals "stock_quantity"
      = [vNum 5, vNum 7, vNum 6] := by
  have hst : ∀ g : Nat × List PyVal → PyVal,
      (prows.map (fun r => (r.1, r.2.set 3 (g r)))).map (fun r => cell r 4)
        = prows.map (fun r => cell r 4) := by
    intro g; rw [List.map_map]
    exact List.map_congr_left fun r hr => getD_set_ne _ 3 4 _ _ (by omega)
  have hpr : ∀ g : Nat × List PyVal → PyVal,
      (prows.map (fun r => (r.1, r.2.set 4 (g r)))).map (fun r => cell r 3)
        = prows.map (fun r => cell r 3) := by
    intro g; rw [List.map_map]
    exact List.map_congr_left fun r hr => getD_set_ne _ 4 3 _ _ (by omega)
  have hsnum1 : ∀ g : Nat × List PyVal → PyVal,
      ∀ r' ∈ prows.map (fun r => (r.1, r.2.set 3 (g r))),
        (cell r' 4).isStrV = false := by
    intro g r' hr'
    obtain ⟨r, hr, rfl⟩ := List.mem_map.mp hr'
    show ((r.2.set 3 (g r)).getD 4 vNone).isStrV = false
    rw [getD_set_ne _ 3 4 _ _ (by omega)]
    exact hsnum r hr
  have hpnum1 : ∀ g : Nat × List PyVal → PyVal,
      ∀ r' ∈ prows.map (fun r => (r.1, r.2.set 4 (g r))),
        (cell r' 3).isStrV = false := by
    intro g r' hr'
    obtain ⟨r, hr, rfl⟩ := List.mem_map.mp hr'
    show ((r.2.set 4 (g r)).getD 3 vNone).isStrV = false
    rw [getD_set_ne _ 4 3 _ _ (by omega)]
    exact hpnum r hr
  rcases hP : pandasMedian (numsOf (prows.map (fun r => cell r 3))) with _ | mp <;>
    rcases hS : pandasMedian (numsOf (prows.map (fun r => cell r 4))) with _ | ms
  · have horig : fillMissingProductDataWithMedian ⟨productsCols, prows⟩
        = ⟨productsCols, prows⟩ := by
      unfold fillMissingProductDataWithMedian
      rw [fillColWithMedian_char productsCols "price" 3 rfl prows hpnum, hP]
      simp only [Option.elim,
        fillColWithMedian_char productsCols "stock_quantity" 4 rfl prows hsnum, hS]
    have hswap : fillMissingProductDataWithMedianSwapped ⟨productsCols, prows⟩
        = ⟨productsCols, prows⟩ := by
      unfold fillMissingProductDataWithMedianSwapped
      rw [fillColWithMedian_char productsCols "stock_quantity" 4 rfl prows hsnum, hS]
      simp only [Option.elim,
        fillColWithMedian_char productsCols "price" 3 rfl prows hpnum, hP]
    refine ⟨?_, ?_, by rw [horig, hswap], by decide, by decide⟩
    · rw [horig, colVals_char productsCols "price" 3 rfl]
      rfl
    · rw [horig, colVals_char productsCols "stock_quantity" 4 rfl]
      rfl
  · have horig : fillMissingProductDataWithMedian ⟨productsCols, prows⟩
        = ⟨productsCols, prows.map (fun r => (r.1,
            r.2.set 4 (if cell r 4 = vNone then vNum ms else cell r 4)))⟩ := by
      unfold fillMissingProductDataWithMedian
      rw [fillColWithMedian_char productsCols "price" 3 rfl prows hpnum, hP]
      simp only [Option.elim,
        fillColWithMedian_char productsCols "stock_quantity" 4 rfl prows hsnum, hS]
    have hswap : fillMissingProductDataWithMedianSwapped ⟨productsCols, prows⟩
        = ⟨productsCols, prows.map (fun r => (r.1,
            r.2.set 4 (if cell r 4 = vNone then vNum ms else cell r 4)))⟩ := by
      unfold fillMissingProductDataWithMedianSwapped
      rw [fillColWithMedian_char productsCols "stock_quantity" 4 rfl prows hsnum, hS]
      simp only [Option.elim]
      have hc2 := fillColWithMedian_char productsCols "price" 3 rfl
        (prows.map (fun r => (r.1,
          r.2.set 4 (if cell r 4 = vNone then vNum ms else cell r 4)))) (hpnum1 _)
      rw [hpr, hP] at hc2
      simp only [Option.elim] at hc2
      simp only [hc2]
    refine ⟨?_, ?_, by rw [horig, hswap], by decide, by decide⟩
    · rw [horig, colVals_char productsCols "price" 3 rfl]
      simp only [Option.elim]
      exact hpr _
    · rw [horig, colVals_char productsCols "stock_quantity" 4 rfl]
      simp only [Option.elim]
      rw [List.map_map, List.map_map]
      refine List.map_congr_left fun r hr => ?_
      simp only [Function.comp, cell]
      rw [getD_set_self _ 4 _ _ (by rw [hlen r hr]; omega)]
  · have horig : fillMissingProductDataWithMedian ⟨productsCols, prows⟩
        = ⟨productsCols, prows.map (fun r => (r.1,
            r.2.set 3 (if cell r 3 = vNone then vNum mp else cell r 3)))⟩ := by
      unfold fillMissingProductDataWithMedian
      rw [fillColWithMedian_char productsCols "price" 3 rfl prows hpnum, hP]
      simp only [Option.elim]
      have hc2 := fillColWithMedian_char productsCols "stock_quantity" 4 rfl
        (prows.map (fun r => (r.1,
          r.2.set 3 (if cell r 3 = vNone then vNum mp else cell r 3)))) (hsnum1 _)
      rw [hst, hS] at hc2
      simp only [Option.elim] at hc2
      simp only [hc2]
    have hswap : fillMissingProductDataWithMedianSwapped ⟨productsCols, prows⟩
        = ⟨productsCols, prows.map (fun r => (r.1,
            r.2.set 3 (if cell r 3 = vNone then vNum mp else cell r 3)))⟩ := by
      unfold fillMissingProductDataWithMedianSwapped
      rw [fillColWithMedian_char productsCols "stock_quantity" 4 rfl prows hsnum, hS]
      simp only [Option.elim,
        fillColWithMedian_char productsCols "price" 3 rfl prows hpnum, hP]
    refine ⟨?_, ?_, by rw [horig, hswap], by decide, by decide⟩
    · rw [horig, colVals_char productsCols "price" 3 rfl]
      simp only [Option.elim]
      rw [List.map_map, List.map_map]
      refine List.map_congr_left fun r hr => ?_
      simp only [Function.comp, cell]
      rw [getD_set_self _ 3 _ _ (by rw [hlen r hr]; omega)]
    · rw [horig, colVals_char productsCols "stock_quantity" 4 rfl]
      simp only [Option.elim]
      exact hst _
  · have horig : fillMissingProductDataWithMedian ⟨productsCols, prows⟩
        = ⟨productsCols, (prows.map (fun r => (r.1,
            r.2.set 3 (if cell r 3 = vNone then vNum mp else cell r 3)))).map
            (fun r => (r.1,
              r.2.set 4 (if cell r 4 = vNone then vNum ms else cell r 4)))⟩ := by
      unfold fillMissingProductDataWithMedian
      rw [fillColWithMedian_char productsCols "price" 3 rfl prows hpnum, hP]
      simp only [Option.elim]
      have hc2 := fillColWithMedian_char productsCols "stock_quantity" 4 rfl
        (prows.map (fun r => (r.1,
          r.2.set 3 (if cell r 3 = vNone then vNum mp else cell r 3)))) (hsnum1 _)
      rw [hst, hS] at hc2
      simp only [Option.elim] at hc2
      simp only [hc2]
    have hswap : fillMissingProductDataWithMedianSwapped ⟨productsCols, prows⟩
        = ⟨productsCols, (prows.map (fun r => (r.1,
            r.2.set 4 (if cell r 4 = vNone then vNum ms else cell r 4)))).map
            (fun r => (r.1,
              r.2.set 3 (if cell r 3 = vNone then vNum mp else cell r 3)))⟩ := by
      unfold fillMissingProductDataWithMedianSwapped
      rw [fillColWithMedian_char productsCols "stock_quantity" 4 rfl prows hsnum, hS]
      simp only [Option.elim]
      have hc2 := fillColWithMedian_char productsCols "price" 3 rfl
        (prows.map (fun r => (r.1,
          r.2.set 4 (if cell r 4 = vNone then vNum ms else cell r 4)))) (hpnum1 _)
      rw [hpr, hP] at hc2
      simp only [Option.elim] at hc2
      simp only [hc2]
    have hcomm : (prows.map (fun r => (r.1,
          r.2.set 4 (if cell r 4 = vNone then vNum ms else cell r 4)))).map
          (fun r => (r.1,
            r.2.set 3 (if cell r 3 = vNone then vNum mp else cell r 3)))
        = (prows.map (fun r => (r.1,
            r.2.set 3 (if cell r 3 = vNone then vNum mp else cell r 3)))).map
            (fun r => (r.1,
              r.2.set 4 (if cell r 4 = vNone then vNum ms else cell r 4))) := by
      rw [List.map_map, List.map_map]
      refine List.map_congr_left fun r hr => ?_
      simp only [Function.comp, cell]
      rw [getD_set_ne _ 4 3 _ _ (by omega), getD_set_ne _ 3 4 _ _ (by omega)]
      rw [List.set_comm _ _ _ (by omega)]
    refine ⟨?_, ?_, by rw [horig, hswap, hcomm], by decide, by decide⟩
    · rw [horig, colVals_char productsCols "price" 3 rfl]
      simp only [Option.elim]
      rw [List.map_map, List.map_map, List.map_map]
      refine List.map_congr_left fun r hr => ?_
      simp only [Function.comp, cell]
      rw [getD_set_ne _ 4 3 _ _ (by omega),
        getD_set_self _ 3 _ _ (by rw [hlen r hr]; omega)]
    · rw [horig, colVals_char productsCols "stock_quantity" 4 rfl]
      simp only [Option.elim]
      rw [List.map_map, List.map_map, List.map_map]
      refine List.map_congr_left fun r hr => ?_
      simp only [Function.comp, cell]
      rw [getD_set_self _ 4 _ _ (by simp [List.length_set, hlen r hr]),
        getD_set_ne _ 3 4 _ _ (by omega)]

/-- C7, witness: the two fill orders agree on the concrete products
batch with a missing price and a missing stock quantity. -/
theorem median_fill_prefill_and_commutes_witness :
    fillMissingProductDataWithMedianSwapped ⟨productsCols, exProductsRaw.rows⟩
      = fillMissingProductDataWithMedian ⟨productsCols, exProductsRaw.rows⟩ :=
  (median_fill_prefill_and_commutes exProductsRaw.rows (by decide) (by decide)
    (by decide)).2.2.1

/-- C6, witness: on the concrete three-row batch with a duplicated
transaction id, the id occurs at most once in the cleaned table. -/
theorem transaction_id_collapse_witness :
    (((cleanSalesS idNorm ⟨salesCols, exSalesRaw.rows⟩).2).colVals
        "transaction_id").count (vStr "1") ≤ 1 :=
  (transaction_id_collapse idNorm exSalesRaw.rows (by decide)).1 (vStr "1")

/-- C8.  In `clean_sales`, dropping rows with a missing customer_id and
then rows with a missing product_id yields the same table as performing
the two drops in the opposite order, for every sales table. -/
theorem drop_missing_steps_commute (srows : List (Nat × List PyVal)) :
    ((⟨salesCols, srows⟩ : Frame).dropnaCol "customer_id" >>=
        (·.dropnaCol "product_id"))
      = ((⟨salesCols, srows⟩ : Frame).dropnaCol "product_id" >>=
          (·.dropnaCol "customer_id")) := by
  simp only [dropna_char salesCols "customer_id" 1 rfl,
    dropna_char salesCols "product_id" 2 rfl, except_bind_ok]
  rw [List.filter_filter, List.filter_filter]
  exact congrArg _ (congrArg _ (List.filter_congr fun a ha => by
    rw [Bool.and_comm]))

/-- C9.  A table load whose input frame is None or has zero rows is
skipped entirely: the database is untouched, no connection attempt, no
delete and no insert occurs, and the only event is the logged skip. -/
theorem empty_or_none_load_skipped (env : LoadEnv) (db : Db) (t : String)
    (cols dels : List String) :
    loadDataToTable env db none t cols dels = (db, [.skipLoad t]) ∧
    ∀ f : Frame, f.rows = [] →
      loadDataToTable env db (some f) t cols dels = (db, [.skipLoad t]) := by
  refine ⟨rfl, fun f hf => ?_⟩
  obtain ⟨fcols, frows⟩ := f
  cases hf
  rfl

/-- C9, witness: loading an empty frame into customers with the
all-success environment is a pure skip. -/
theorem empty_or_none_load_skipped_witness :
    loadDataToTable okEnv db0 (some Frame.empty) "customers" customersCols
      ["order_items", "orders", "customers"] = (db0, [.skipLoad "customers"]) :=
  (empty_or_none_load_skipped okEnv db0 "customers" customersCols
    ["order_items", "orders", "customers"]).2 Frame.empty rfl

/-- C4, counterexample.  On a table whose customer_id column is absent
(the spec's table-level error), `clean_customers` returns None — the
missing return of its except branch — not an empty table. -/
theorem clean_customers_error_returns_none :
    (cleanCustomersS nanPhone idNorm exNoIdCols).2 = none ∧
    (cleanCustomersS nanPhone idNorm exNoIdCols).2 ≠ some Frame.empty := by
  decide

/-- C4, amended.  Every cleaner is total (never raises past its
boundary, by construction of the model); on a table-level error
`clean_sales` returns an empty table, but `clean_customers` and
`clean_products` return an absent (None) result; the loader treats None
and an empty table identically, skipping the load. -/
theorem cleaner_table_level_error_results (stdPhone stdDate : PyVal → PyVal)
    (df : Frame) (hc : df.colIdx "customer_id" = none)
    (hp : df.colIdx "product_id" = none) :
    (cleanCustomersS stdPhone stdDate df).2 = none ∧
    (cleanProductsS df).2 = none ∧
    (cleanSalesS stdDate df).2 = Frame.empty ∧
    ∀ (env : LoadEnv) (db : Db) (t : String) (cols dels : List String),
      loadDataToTable env db none t cols dels
        = loadDataToTable env db (some Frame.empty) t cols dels := by
  have h1 : df.applyCol "customer_id" removeFirstChar = .error "customer_id" := by
    unfold Frame.applyCol Frame.getCol
    rw [hc]
    rfl
  have h2 : df.applyCol "product_id" removeFirstChar = .error "product_id" := by
    unfold Frame.applyCol Frame.getCol
    rw [hp]
    rfl
  refine ⟨?_, ?_, ?_, fun env db t cols dels => rfl⟩
  · simp only [cleanCustomersS, h1]
  · simp only [cleanProductsS, h2]
  · simp only [cleanSalesS, h1]

/-- C4, witness for the amended theorem at a concrete id-less table. -/
theorem cleaner_table_level_error_results_witness :
    (cleanProductsS exNoIdCols).2 = none :=
  (cleaner_table_level_error_results nanPhone idNorm exNoIdCols (by decide)
    (by decide)).2.1

/-- C10.  In the customers cleaner's missing-email fill, a null email
and an empty-string email are both treated as missing: such a row's
email becomes the placeholder built from "unknown_email_" followed by
the row's customer_id (at that point the surrogate id, the raw id with
its first character dropped), and every other row's email is unchanged;
on a concrete one-row raw table with id C001 and no email, the cleaned
email is unknown_email_001. -/
theorem missing_email_fill_spec (crows : List (Nat × List PyVal))
    (hlen : ∀ r ∈ crows, r.2.length = 7)
    (i : Nat) (hi : i < crows.length) (cid : String)
    (hcid : cell (crows.getD i (0, [])) 0 = vStr cid) :
    ((fillMissingEmailF ⟨customersCols, crows⟩).rows.getD i (0, [])).2.getD 3
        vNone
      = (if cell (crows.getD i (0, [])) 3 = vNone ∨
            cell (crows.getD i (0, [])) 3 = vStr ""
         then vStr ("unknown_email_" ++ cid)
         else cell (crows.getD i (0, [])) 3) ∧
    Option.map (fun f => f.colVals "email")
        ((cleanCustomersS nanPhone idNorm exCustomersNoEmail).2)
      = some [vStr "unknown_email_001"] := by
  refine ⟨?_, by decide⟩
  have hchar : fillMissingEmailF ⟨customersCols, crows⟩
      = ⟨customersCols, crows.map (fun r =>
          if cell r 3 = vNone ∨ cell r 3 = vStr "" then
            (r.1, r.2.set 3 (vStr ("unknown_email_" ++ (cell r 0).pyStrV)))
          else r)⟩ := rfl
  rw [hchar]
  have hr : crows.getD i (0, []) = crows.get ⟨i, hi⟩ := by
    rw [List.getD_eq_getElem?_getD, List.getElem?_eq_getElem hi]
    rfl
  have hmem : crows.get ⟨i, hi⟩ ∈ crows := List.get_mem crows i hi
  have hmap : (crows.map (fun r =>
      if cell r 3 = vNone ∨ cell r 3 = vStr "" then
        (r.1, r.2.set 3 (vStr ("unknown_email_" ++ (cell r 0).pyStrV)))
      else r)).getD i (0, [])
      = (if cell (crows.get ⟨i, hi⟩) 3 = vNone ∨
            cell (crows.get ⟨i, hi⟩) 3 = vStr "" then
          ((crows.get ⟨i, hi⟩).1, (crows.get ⟨i, hi⟩).2.set 3
            (vStr ("unknown_email_" ++ (cell (crows.get ⟨i, hi⟩) 0).pyStrV)))
        else crows.get ⟨i, hi⟩) := by
    rw [List.getD_eq_getElem?_getD, List.getElem?_map,
      List.getElem?_eq_getElem hi]
    rfl
  rw [hmap, hr]
  by_cases hcond : cell (crows.get ⟨i, hi⟩) 3 = vNone ∨
      cell (crows.get ⟨i, hi⟩) 3 = vStr ""
  · rw [if_pos hcond, if_pos hcond]
    show ((crows.get ⟨i, hi⟩).2.set 3 _).getD 3 vNone = _
    rw [getD_set_self _ 3 _ _ (by rw [hlen _ hmem]; omega)]
    rw [hr] at hcid
    rw [show (cell (crows.get ⟨i, hi⟩) 0) = vStr cid from hcid]
    rfl
  · rw [if_neg hcond, if_neg hcond]
    rfl

/-- C10, witness at the concrete one-row table with a missing email. -/
theorem missing_email_fill_spec_witness :
    ((fillMissingEmailF ⟨customersCols, exCustomersNoEmail.rows⟩).rows.getD 0
        (0, [])).2.getD 3 vNone
      = (if cell (exCustomersNoEmail.rows.getD 0 (0, [])) 3 = vNone ∨
            cell (exCustomersNoEmail.rows.getD 0 (0, [])) 3 = vStr ""
         then vStr ("unknown_email_" ++ "C001")
         else cell (exCustomersNoEmail.rows.getD 0 (0, [])) 3) :=
  (missing_email_fill_spec exCustomersNoEmail.rows (by decide) 0 (by decide)
    "C001" (by decide)).1

theorem connAttempt_mem (env : LoadEnv) (db : Db) (f : Frame) (t : String)
    (cols dels : List String) (hne : f.rows ≠ []) :
    DbEvent.connAttempt t ∈ (loadDataToTable env db (some f) t cols dels).2 := by
  unfold loadDataToTable
  have hemp : f.rows.isEmpty = false := by
    cases hrows : f.rows with
    | nil => exact absurd hrows hne
    | cons a l => rfl
  simp only [hemp, Bool.false_eq_true, if_false]
  split
  · simp
  · split
    · simp
    · split <;> simp

/-- C2, counterexample.  With an environment where only the customers
database connection fails (a connectivity-class failure), the run still
attempts — and here commits — the products load, and also attempts the
orders and order_items loads: a connection failure is not escalated and
does not stop the remaining tables. -/
theorem conn_failure_does_not_halt_run :
    DbEvent.connFailed "customers" ∈ (mainRun nanPhone idNorm envCustConnFail
        db0 exCustomersRaw exProductsRaw exSalesRaw).events ∧
    DbEvent.connAttempt "products" ∈ (mainRun nanPhone idNorm envCustConnFail
        db0 exCustomersRaw exProductsRaw exSalesRaw).events ∧
    DbEvent.committed "products" ∈ (mainRun nanPhone idNorm envCustConnFail
        db0 exCustomersRaw exProductsRaw exSalesRaw).events ∧
    DbEvent.connAttempt "orders" ∈ (mainRun nanPhone idNorm envCustConnFail
        db0 exCustomersRaw exProductsRaw exSalesRaw).events ∧
    DbEvent.connAttempt "order_items" ∈ (mainRun nanPhone idNorm envCustConnFail
        db0 exCustomersRaw exProductsRaw exSalesRaw).events := by decide

/-- C2, amended.  In every run whose four cleaned tables are nonempty,
every scheduled table load is attempted (a fresh connection attempt per
table), regardless of any earlier failure and of its class: failures —
connection failures included — are local to their table and never
prevent the remaining loads. -/
theorem every_scheduled_load_attempted (env : LoadEnv) (db : Db)
    (cdf pdf : Option Frame) (odf oidf : Frame)
    (hc : ∃ f, cdf = some f ∧ f.rows ≠ [])
    (hp : ∃ f, pdf = some f ∧ f.rows ≠ [])
    (ho : odf.rows ≠ []) (hoi : oidf.rows ≠ []) :
    DbEvent.connAttempt "customers" ∈ (runLoads env db cdf pdf odf oidf).2 ∧
    DbEvent.connAttempt "products" ∈ (runLoads env db cdf pdf odf oidf).2 ∧
    DbEvent.connAttempt "orders" ∈ (runLoads env db cdf pdf odf oidf).2 ∧
    DbEvent.connAttempt "order_items" ∈ (runLoads env db cdf pdf odf oidf).2 := by
  obtain ⟨cf, rfl, hcne⟩ := hc
  obtain ⟨pf, rfl, hpne⟩ := hp
  unfold runLoads loadDataToCustomersDb loadDataToProductsDb loadDataToOrdersDb
    loadDataToOrderItemsDb
  refine ⟨?_, ?_, ?_, ?_⟩
  · exact List.mem_append.mpr (Or.inl (List.mem_append.mpr (Or.inl
      (List.mem_append.mpr (Or.inl (connAttempt_mem env db cf "customers"
        customersCols ["order_items", "orders", "customers"] hcne))))))
  · exact List.mem_append.mpr (Or.inl (List.mem_append.mpr (Or.inl
      (List.mem_append.mpr (Or.inr (connAttempt_mem env _ pf "products"
        productsCols ["order_items", "products"] hpne))))))
  · exact List.mem_append.mpr (Or.inl (List.mem_append.mpr (Or.inr
      (connAttempt_mem env _ odf "orders" ordersCols ["orders"] ho))))
  · exact List.mem_append.mpr (Or.inr (connAttempt_mem env _ oidf
      "order_items" orderItemsCols ["order_items"] hoi))

/-- C2, witness: all four loads are attempted on the concrete run even
though every database connection fails. -/
theorem every_scheduled_load_attempted_witness :
    DbEvent.connAttempt "customers" ∈ (runLoads ⟨fun _ => false, fun _ => true⟩
        db0 (some exCustomersRaw) (some exProductsRaw) exSalesRaw
        exSalesRaw).2 ∧
    DbEvent.connAttempt "products" ∈ (runLoads ⟨fun _ => false, fun _ => true⟩
        db0 (some exCustomersRaw) (some exProductsRaw) exSalesRaw
        exSalesRaw).2 ∧
    DbEvent.connAttempt "orders" ∈ (runLoads ⟨fun _ => false, fun _ => true⟩
        db0 (some exCustomersRaw) (some exProductsRaw) exSalesRaw
        exSalesRaw).2 ∧
    DbEvent.connAttempt "order_items" ∈ (runLoads ⟨fun _ => false, fun _ => true⟩
        db0 (some exCustomersRaw) (some exProductsRaw) exSalesRaw
        exSalesRaw).2 :=
  every_scheduled_load_attempted ⟨fun _ => false, fun _ => true⟩ db0
    (some exCustomersRaw) (some exProductsRaw) exSalesRaw exSalesRaw
    ⟨exCustomersRaw, rfl, by decide⟩ ⟨exProductsRaw, rfl, by decide⟩
    (by decide) (by decide)

/-- C3, counterexample.  The quality report `main` writes is computed
from the customers table as mutated in place by `clean_customers` (the
surrogate-id stripping and trimming happen before the first copy), not
from the table as extracted: two raw rows that differ only in the id
prefix letter become full duplicates after mutation, so the pipeline's
report counts 1 duplicate and 1 loadable record where the raw table has
0 duplicates and 2. -/
theorem quality_report_reads_mutated_tables :
    (mainRun nanPhone idNorm okEnv db0 exCustomersRaw exProductsRaw
        exSalesRaw).reports.get? 0
      = some (generateQualityReport
          (cleanCustomersS nanPhone idNorm exCustomersRaw).1
          "customers_raw.csv") ∧
    generateQualityReport (cleanCustomersS nanPhone idNorm exCustomersRaw).1
        "customers_raw.csv"
      ≠ generateQualityReport exCustomersRaw "customers_raw.csv" ∧
    (generateQualityReport (cleanCustomersS nanPhone idNorm exCustomersRaw).1
        "customers_raw.csv").duplicatesRemoved = 1 ∧
    (generateQualityReport exCustomersRaw
        "customers_raw.csv").duplicatesRemoved = 0 := by decide

/-- C3, amended.  The quality report of a run is computed from the
three raw frames in the state the cleaners leave them: for the
customers table that is the raw frame after the in-place surrogate-id
assignment and trim (explicitly characterized below); and the reporter
itself is read-only — the final database state of the run is exactly
the state produced by the load phase, unaffected by report
generation. -/
theorem quality_report_inputs (stdPhone stdDate : PyVal → PyVal)
    (env : LoadEnv) (db : Db) (cRaw pRaw sRaw : Frame)
    (crows : List (Nat × List PyVal)) (hc : cRaw = ⟨customersCols, crows⟩) :
    (mainRun stdPhone stdDate env db cRaw pRaw sRaw).reports
      = [generateQualityReport (cleanCustomersS stdPhone stdDate cRaw).1
           "customers_raw.csv",
         generateQualityReport (cleanProductsS pRaw).1 "products_raw.csv",
         generateQualityReport (cleanSalesS stdDate sRaw).1 "sales_raw.csv"] ∧
    (cleanCustomersS stdPhone stdDate cRaw).1
      = Frame.trimStrCols ⟨customersCols, crows.map (fun r =>
          (r.1, r.2.set 0 (removeFirstChar (cell r 0))))⟩ ∧
    (mainRun stdPhone stdDate env db cRaw pRaw sRaw).db
      = (runLoads env db (cleanCustomersS stdPhone stdDate cRaw).2
          (cleanProductsS pRaw).2
          (splitSalesToOrders (cleanSalesS stdDate sRaw).2)
          (splitSalesToOrderItems (cleanSalesS stdDate sRaw).2)).1 := by
  subst hc
  refine ⟨rfl, ?_, rfl⟩
  unfold cleanCustomersS
  rw [applyCol_char customersCols "customer_id" 0 rfl]

/-- C3, witness for the amended theorem at the concrete run. -/
theorem quality_report_inputs_witness :
    (mainRun nanPhone idNorm okEnv db0 exCustomersRaw exProductsRaw
        exSalesRaw).reports
      = [generateQualityReport (cleanCustomersS nanPhone idNorm
           exCustomersRaw).1 "customers_raw.csv",
         generateQualityReport (cleanProductsS exProductsRaw).1
           "products_raw.csv",
         generateQualityReport (cleanSalesS idNorm exSalesRaw).1
           "sales_raw.csv"] :=
  (quality_report_inputs nanPhone idNorm okEnv db0 exCustomersRaw
    exProductsRaw exSalesRaw exCustomersRaw.rows rfl).1

theorem loadCustomers_db (db : Db) (cdf : Option Frame) :
    (loadDataToCustomersDb okEnv db cdf).1
      = (match loadEffect cdf customersCols with
         | none => db
         | some rs => { db with
                        customers := rs
                        orders := []
                        order_items := [] }) := by
  unfold loadDataToCustomersDb loadDataToTable loadEffect okEnv
  cases cdf with
  | none => rfl
  | some f =>
    cases hemp : f.rows.isEmpty with
    | true => simp [hemp]
    | false =>
      simp only [hemp, Bool.false_eq_true, if_false]
      cases hsel : f.select customersCols with
      | error e => simp [hsel]
      | ok sel => simp [hsel, Db.clearTable, Db.appendTable]

theorem loadProducts_db (db : Db) (pdf : Option Frame) :
    (loadDataToProductsDb okEnv db pdf).1
      = (match loadEffect pdf productsCols with
         | none => db
         | some rs => { db with
                        products := rs
                        order_items := [] }) := by
  unfold loadDataToProductsDb loadDataToTable loadEffect okEnv
  cases pdf with
  | none => rfl
  | some f =>
    cases hemp : f.rows.isEmpty with
    | true => simp [hemp]
    | false =>
      simp only [hemp, Bool.false_eq_true, if_false]
      cases hsel : f.select productsCols with
      | error e => simp [hsel]
      | ok sel => simp [hsel, Db.clearTable, Db.appendTable]

theorem loadOrders_db (db : Db) (odf : Option Frame) :
    (loadDataToOrdersDb okEnv db odf).1
      = (match loadEffect odf ordersCols with
         | none => db
         | some rs => { db with orders := rs }) := by
  unfold loadDataToOrdersDb loadDataToTable loadEffect okEnv
  cases odf with
  | none => rfl
  | some f =>
    cases hemp : f.rows.isEmpty with
    | true => simp [hemp]
    | false =>
      simp only [hemp, Bool.false_eq_true, if_false]
      cases hsel : f.select ordersCols with
      | error e => simp [hsel]
      | ok sel => simp [hsel, Db.clearTable, Db.appendTable]

theorem loadOrderItems_db (db : Db) (oidf : Option Frame) :
    (loadDataToOrderItemsDb okEnv db oidf).1
      = (match loadEffect oidf orderItemsCols with
         | none => db
         | some rs => { db with order_items := rs }) := by
  unfold loadDataToOrderItemsDb loadDataToTable loadEffect okEnv
  cases oidf with
  | none => rfl
  | some f =>
    cases hemp : f.rows.isEmpty with
    | true => simp [hemp]
    | false =>
      simp only [hemp, Bool.false_eq_true, if_false]
      cases hsel : f.select orderItemsCols with
      | error e => simp [hsel]
      | ok sel => simp [hsel, Db.clearTable, Db.appendTable]

theorem runLoads_idem (db : Db) (cdf pdf : Option Frame) (odf oidf : Frame) :
    (runLoads okEnv (runLoads okEnv db cdf pdf odf oidf).1 cdf pdf odf
        oidf).1
      = (runLoads okEnv db cdf pdf odf oidf).1 := by
  have hchar : ∀ d : Db, (runLoads okEnv d cdf pdf odf oidf).1
      = (loadDataToOrderItemsDb okEnv (loadDataToOrdersDb okEnv
          (loadDataToProductsDb okEnv (loadDataToCustomersDb okEnv d cdf).1
            pdf).1 (some odf)).1 (some oidf)).1 := fun d => rfl
  rw [hchar ((runLoads okEnv db cdf pdf odf oidf).1), hchar db]
  simp only [loadCustomers_db, loadProducts_db, loadOrders_db,
    loadOrderItems_db]
  rcases loadEffect cdf customersCols with _ | crs <;>
    rcases loadEffect pdf productsCols with _ | prs <;>
    rcases loadEffect (some odf) ordersCols with _ | ors <;>
    rcases loadEffect (some oidf) orderItemsCols with _ | oirs <;>
    rfl

/-- C5.  Running the full pipeline twice on the same raw inputs, with
every database operation succeeding: the second run's cleaned tables,
orders and order_items equal the first run's, the database state after
the second run equals the state after the first, and in particular the
row counts of all four target tables agree — for any initial database
state (the load deletes all rows before inserting, so no stale rows
survive; a skipped table is skipped identically in both runs). -/
theorem pipeline_idempotent (stdPhone stdDate : PyVal → PyVal) (db : Db)
    (cRaw pRaw sRaw : Frame) :
    (mainRun stdPhone stdDate okEnv
        (mainRun stdPhone stdDate okEnv db cRaw pRaw sRaw).db
        cRaw pRaw sRaw).cleanedCustomers
      = (mainRun stdPhone stdDate okEnv db cRaw pRaw sRaw).cleanedCustomers ∧
    (mainRun stdPhone stdDate okEnv
        (mainRun stdPhone stdDate okEnv db cRaw pRaw sRaw).db
        cRaw pRaw sRaw).cleanedProducts
      = (mainRun stdPhone stdDate okEnv db cRaw pRaw sRaw).cleanedProducts ∧
    (mainRun stdPhone stdDate okEnv
        (mainRun stdPhone stdDate okEnv db cRaw pRaw sRaw).db
        cRaw pRaw sRaw).cleanedSales
      = (mainRun stdPhone stdDate okEnv db cRaw pRaw sRaw).cleanedSales ∧
    (mainRun stdPhone stdDate okEnv
        (mainRun stdPhone stdDate okEnv db cRaw pRaw sRaw).db
        cRaw pRaw sRaw).orders
      = (mainRun stdPhone stdDate okEnv db cRaw pRaw sRaw).orders ∧
    (mainRun stdPhone stdDate okEnv
        (mainRun stdPhone stdDate okEnv db cRaw pRaw sRaw).db
        cRaw pRaw sRaw).orderItems
      = (mainRun stdPhone stdDate okEnv db cRaw pRaw sRaw).orderItems ∧
    (mainRun stdPhone stdDate okEnv
        (mainRun stdPhone stdDate okEnv db cRaw pRaw sRaw).db
        cRaw pRaw sRaw).db
      = (mainRun stdPhone stdDate okEnv db cRaw pRaw sRaw).db ∧
    (mainRun stdPhone stdDate okEnv
        (mainRun stdPhone stdDate okEnv db cRaw pRaw sRaw).db
        cRaw pRaw sRaw).db.customers.length
      = (mainRun stdPhone stdDate okEnv db cRaw pRaw
          sRaw).db.customers.length ∧
    (mainRun stdPhone stdDate okEnv
        (mainRun stdPhone stdDate okEnv db cRaw pRaw sRaw).db
        cRaw pRaw sRaw).db.products.length
      = (mainRun stdPhone stdDate okEnv db cRaw pRaw
          sRaw).db.products.length ∧
    (mainRun stdPhone stdDate okEnv
        (mainRun stdPhone stdDate okEnv db cRaw pRaw sRaw).db
        cRaw pRaw sRaw).db.orders.length
      = (mainRun stdPhone stdDate okEnv db cRaw pRaw sRaw).db.orders.length ∧
    (mainRun stdPhone stdDate okEnv
        (mainRun stdPhone stdDate okEnv db cRaw pRaw sRaw).db
        cRaw pRaw sRaw).db.order_items.length
      = (mainRun stdPhone stdDate okEnv db cRaw pRaw
          sRaw).db.order_items.length := by
  have hdb : (mainRun stdPhone stdDate okEnv
      (mainRun stdPhone stdDate okEnv db cRaw pRaw sRaw).db
      cRaw pRaw sRaw).db
      = (mainRun stdPhone stdDate okEnv db cRaw pRaw sRaw).db :=
    runLoads_idem db (cleanCustomersS stdPhone stdDate cRaw).2
      (cleanProductsS pRaw).2
      (splitSalesToOrders (cleanSalesS stdDate sRaw).2)
      (splitSalesToOrderItems (cleanSalesS stdDate sRaw).2)
  exact ⟨rfl, rfl, rfl, rfl, rfl, hdb, by rw [hdb], by rw [hdb], by rw [hdb],
    by rw [hdb]⟩
